import Mathlib

/-! # Envelope protocol helpers of the ordering service

A shallow embedding of `protoutil/commonutils.go` (header extraction, type
validation, envelope extraction from a block, config classification, nonces and
header construction), of the genesis block factory `common/genesis/genesis.go`, of
the expiration rule `orderer/common/msgprocessor/expiration.go` and of the decoders
`common/configtx/util.go`, and the properties of these operations.

Conventions of the embedding

* A Go pointer `*T` is an `Option T`; `none` is the nil pointer.  Reading a
  field through a nil pointer aborts the operation (`Panic.nilDereference`).
* A Go byte slice is a `GoBytes`: `none` is the nil slice.
* A Go function returning `(*T, error)` returns a pair (or a record) of options.
* An operation that can abort runs in `Go`, that is `Except Panic`.
* The byte-level wire codec is not part of the repository: the decoders are the
  fields of a `Codec`, and every general theorem holds for every codec.
* The encoder, the entropy source, the clock and the helpers that the sources call
  but do not contain are parameters as well (`Collaborators`).
-/

/-! ## Go values -/

/-- Go byte slice: `none` is the nil slice, `some bs` a non-nil slice of content `bs`. -/
abbrev GoBytes := Option (List Nat)

/-- The bytes a decoder reads from a slice: a nil slice and an empty slice both
have length zero. -/
def bytesOf (b : GoBytes) : List Nat :=
  match b with
  | none => []
  | some bs => bs

/-- Decode failure reported by the wire codec (the `MalformedMessage` condition). -/
structure MalformedMessage where
  detail : String
deriving DecidableEq, Repr

/-- Go error values seen by this package.  `new` is an error created here by
`errors.New` or `errors.Errorf` (with its formatted message), `malformed` is an
error handed back by a decoder, `withMessage` and `wrap` are the annotations of
`errors.WithMessage(f)` and `errors.Wrap(f)`. -/
inductive GoError where
  | new (msg : String)
  | malformed (cause : MalformedMessage)
  | withMessage (cause : GoError) (msg : String)
  | wrap (cause : GoError) (msg : String)
deriving DecidableEq, Repr

/-- The message of an error, as `err.Error()` renders it. -/
def GoError.Error : GoError → String
  | .new msg => msg
  | .malformed cause => cause.detail
  | .withMessage cause msg => msg ++ ": " ++ cause.Error
  | .wrap cause msg => msg ++ ": " ++ cause.Error

/-- What an aborted operation carries. -/
inductive Panic where
  | nilDereference
  | indexOutOfRange
  | error (err : GoError)
deriving DecidableEq, Repr

/-- An operation that either returns or aborts. -/
abbrev Go (α : Type) := Except Panic α

namespace errors

/-- Go `errors.New(msg)`. -/
def New (msg : String) : GoError := GoError.new msg

/-- Go `errors.WithMessage(err, msg)`: nil stays nil. -/
def WithMessage (err : Option GoError) (msg : String) : Option GoError :=
  match err with
  | none => none
  | some e => some (GoError.withMessage e msg)

/-- Go `errors.Wrap(err, msg)`: nil stays nil. -/
def Wrap (err : Option GoError) (msg : String) : Option GoError :=
  match err with
  | none => none
  | some e => some (GoError.wrap e msg)

end errors

/-! ## Messages of the `common` protocol package

The message types and the header type enumeration are declared in the protocol
package, outside the repository.  They are given here with the fields that the
specification (section 3) lists and the source reads or writes. -/

namespace cb

/-- Modelled from the spec: the header type enumeration (section 6) of the missing
protocol package.  The tag is an `int32` field of the channel header, so any
integer can occur; the numeric tags are those of the shared schema. -/
abbrev HeaderType := Int

def HeaderType_MESSAGE : HeaderType := 0
def HeaderType_CONFIG : HeaderType := 1
def HeaderType_CONFIG_UPDATE : HeaderType := 2
def HeaderType_ENDORSER_TRANSACTION : HeaderType := 3
def HeaderType_ORDERER_TRANSACTION : HeaderType := 4
def HeaderType_DELIVER_SEEK_INFO : HeaderType := 5
def HeaderType_CHAINCODE_PACKAGE : HeaderType := 6

/-- Modelled from the spec: the name table of the header type enumeration
(section 6) of the missing protocol package. -/
def HeaderType_name (x : Int) : Option String :=
  if x = 0 then some "MESSAGE"
  else if x = 1 then some "CONFIG"
  else if x = 2 then some "CONFIG_UPDATE"
  else if x = 3 then some "ENDORSER_TRANSACTION"
  else if x = 4 then some "ORDERER_TRANSACTION"
  else if x = 5 then some "DELIVER_SEEK_INFO"
  else if x = 6 then some "CHAINCODE_PACKAGE"
  else none

/-- Modelled from the spec: the `String()` method of a header type of the missing
protocol package, its name, or its decimal value when the tag has no name. -/
def HeaderTypeString (x : HeaderType) : String :=
  match HeaderType_name x with
  | some s => s
  | none => toString x

/-- Modelled from the spec: the timestamp of a channel header. -/
structure Timestamp where
  Seconds : Int
  Nanos : Int
deriving DecidableEq, Repr

/-- Modelled from the spec: the ChannelHeader record (section 3) of the missing protocol package. -/
structure ChannelHeader where
  Type_ : Int
  Version : Int
  Timestamp : Option Timestamp
  ChannelId : String
  TxId : String
  Epoch : Nat
deriving DecidableEq, Repr

/-- Modelled from the spec: the SignatureHeader record (section 3) of the missing protocol package. -/
structure SignatureHeader where
  Creator : GoBytes
  Nonce : GoBytes
deriving DecidableEq, Repr

/-- Modelled from the spec: the Header record (section 3) of the missing protocol package; both
parts are serialized sub-messages. -/
structure Header where
  ChannelHeader : GoBytes
  SignatureHeader : GoBytes
deriving DecidableEq, Repr

/-- Modelled from the spec: the Payload record (section 3) of the missing protocol package; the
header is a pointer and may be nil. -/
structure Payload where
  Header : Option Header
  Data : GoBytes
deriving DecidableEq, Repr

/-- Modelled from the spec: the Envelope record (section 3) of the missing protocol package. -/
structure Envelope where
  Payload : GoBytes
  Signature : GoBytes
deriving DecidableEq, Repr

/-- Modelled from the spec: the header of a Block (section 3) of the missing protocol package. -/
structure BlockHeader where
  Number : Nat
  PreviousHash : GoBytes
  DataHash : GoBytes
deriving DecidableEq, Repr

/-- Modelled from the spec: the data of a Block (section 3), an ordered sequence of
serialized envelopes. -/
structure BlockData where
  Data : List GoBytes
deriving DecidableEq, Repr

/-- Modelled from the spec: the metadata of a Block (section 3), an indexed sequence of bytes. -/
structure BlockMetadata where
  Metadata : List GoBytes
deriving DecidableEq, Repr

/-- Modelled from the spec: the extension of a Block (section 3). -/
structure BlockExtension where
  ExtensionData : List GoBytes
deriving DecidableEq, Repr

/-- Modelled from the spec: the Block record (section 3) of the missing protocol package; its
four parts are pointers. -/
structure Block where
  Header : Option BlockHeader
  Data : Option BlockData
  Metadata : Option BlockMetadata
  Extension : Option BlockExtension
deriving DecidableEq, Repr

end cb

/-! ## The wire codec, as the package sees it -/

/-- The decoders this package calls (`protoutil.UnmarshalPayload`,
`protoutil.UnmarshalChannelHeader`, `protoutil.GetEnvelopeFromBlock`), taken as
parameters.  Each one reads the bytes of a slice and either yields the decoded
message or fails with `MalformedMessage`. -/
structure Codec where
  UnmarshalPayload : List Nat → Except MalformedMessage cb.Payload
  UnmarshalChannelHeader : List Nat → Except MalformedMessage cb.ChannelHeader
  GetEnvelopeFromBlock : List Nat → Except MalformedMessage cb.Envelope

/-- Go `proto.Unmarshal(data, message)` for a message type `M`: the state of
`message` after the call, and the error if the bytes do not decode. -/
abbrev ProtoUnmarshal (M : Type) := List Nat → M → M × Option MalformedMessage

namespace protoutil

/-- Result of `UnmarshalEnvelopeOfType`: the two returned values and the final
state of the `message` argument. -/
structure EnvelopeOfType (M : Type) where
  chdr : Option cb.ChannelHeader
  err : Option GoError
  message : M
deriving DecidableEq, Repr

/-- The error of the header type check, `errors.Errorf("invalid type %s, expected %s", ...)`. -/
def invalidTypeError (actual expected : cb.HeaderType) : GoError :=
  GoError.new ("invalid type " ++ cb.HeaderTypeString actual ++ ", expected " ++
    cb.HeaderTypeString expected)

/-- Go `UnmarshalEnvelopeOfType(envelope, headerType, message)`.  The envelope is
read through its pointer without a nil check. -/
def UnmarshalEnvelopeOfType {M : Type} (c : Codec) (unmarshal : ProtoUnmarshal M)
    (envelope : Option cb.Envelope) (headerType : cb.HeaderType) (message : M) :
    Go (EnvelopeOfType M) :=
  match envelope with
  | none => .error Panic.nilDereference
  | some envelope =>
    match c.UnmarshalPayload (bytesOf envelope.Payload) with
    | .error err => .ok ⟨none, some (GoError.malformed err), message⟩
    | .ok payload =>
      match payload.Header with
      | none => .ok ⟨none, some (errors.New "envelope must have a Header"), message⟩
      | some header =>
        match c.UnmarshalChannelHeader (bytesOf header.ChannelHeader) with
        | .error err => .ok ⟨none, some (GoError.malformed err), message⟩
        | .ok chdr =>
          if chdr.Type_ ≠ headerType then
            .ok ⟨none, some (invalidTypeError chdr.Type_ headerType), message⟩
          else
            let decoded := unmarshal (bytesOf payload.Data) message
            .ok ⟨some chdr,
              errors.Wrap (decoded.2.map GoError.malformed)
                ("error unmarshaling message for type " ++ cb.HeaderTypeString headerType),
              decoded.1⟩

/-- Go `ExtractEnvelope(block, index)`.  The slice read `block.Data.Data[index]`
aborts when the index is out of range. -/
def ExtractEnvelope (c : Codec) (block : Option cb.Block) (index : Int) :
    Go (Option cb.Envelope × Option GoError) :=
  match block with
  | none => .error Panic.nilDereference
  | some block =>
    match block.Data with
    | none => .ok (none, some (errors.New "block data is nil"))
    | some data =>
      let envelopeCount : Int := data.Data.length
      if index < 0 ∨ index ≥ envelopeCount then
        .ok (none, some (errors.New "envelope index out of bounds"))
      else
        match data.Data[index.toNat]? with
        | none => .error Panic.indexOutOfRange
        | some marshaledEnvelope =>
          match c.GetEnvelopeFromBlock (bytesOf marshaledEnvelope) with
          | .ok envelope => .ok (some envelope, none)
          | .error err =>
            .ok (none, errors.WithMessage (some (GoError.malformed err))
              ("block data does not carry an envelope at index " ++ toString index))

/-- Go `ExtractEnvelopeOrPanic(block, index)`. -/
def ExtractEnvelopeOrPanic (c : Codec) (block : Option cb.Block) (index : Int) :
    Go (Option cb.Envelope) :=
  match ExtractEnvelope c block index with
  | .error p => .error p
  | .ok (envelope, err) =>
    match err with
    | some e => .error (Panic.error e)
    | none => .ok envelope

/-- Go `IsConfigBlock(block)`. -/
def IsConfigBlock (c : Codec) (block : Option cb.Block) : Go Bool :=
  match ExtractEnvelope c block 0 with
  | .error p => .error p
  | .ok (envelope, err) =>
    match err with
    | some _ => .ok false
    | none =>
      match envelope with
      | none => .error Panic.nilDereference
      | some envelope =>
        match c.UnmarshalPayload (bytesOf envelope.Payload) with
        | .error _ => .ok false
        | .ok payload =>
          match payload.Header with
          | none => .ok false
          | some header =>
            match c.UnmarshalChannelHeader (bytesOf header.ChannelHeader) with
            | .error _ => .ok false
            | .ok hdr =>
              .ok (decide (hdr.Type_ = cb.HeaderType_CONFIG) ||
                decide (hdr.Type_ = cb.HeaderType_ORDERER_TRANSACTION))

/-- Go `ChannelHeader(env)`. -/
def ChannelHeader (c : Codec) (env : Option cb.Envelope) :
    Option cb.ChannelHeader × Option GoError :=
  match env with
  | none => (none, some (errors.New "Invalid envelope payload. can\x27t be nil"))
  | some env =>
    match c.UnmarshalPayload (bytesOf env.Payload) with
    | .error err => (none, some (GoError.malformed err))
    | .ok envPayload =>
      match envPayload.Header with
      | none => (none, some (errors.New "header not set"))
      | some header =>
        match header.ChannelHeader with
        | none => (none, some (errors.New "channel header not set"))
        | some _ =>
          match c.UnmarshalChannelHeader (bytesOf header.ChannelHeader) with
          | .error err =>
            (none, errors.WithMessage (some (GoError.malformed err))
              "error unmarshaling channel header")
          | .ok chdr => (some chdr, none)

end protoutil

/-! ## A sample codec

The general theorems hold for every `Codec`.  To evaluate the operations on
concrete envelopes and blocks, `sample.codec` is one instance: a tag, length,
value encoding in the style of the wire format, in which a field starts with a
key `8 * number + kind` (kind 0: one number follows, kind 2: a length and that
many bytes follow), unknown fields are skipped, and a key of another kind or a
field running past the end of the input is malformed.  The empty input decodes
to the message with no field set. -/

namespace sample

/-- One decoded field: its number and its value. -/
inductive Field where
  | varint (num : Nat) (value : Nat)
  | bytes (num : Nat) (content : List Nat)
deriving DecidableEq, Repr

/-- Split the input into fields; the first argument bounds the number of fields. -/
def parse : Nat → List Nat → Option (List Field)
  | _, [] => some []
  | 0, _ :: _ => none
  | fuel + 1, key :: rest =>
    if key % 8 = 0 then
      match rest with
      | [] => none
      | v :: more => (parse fuel more).map (fun fs => Field.varint (key / 8) v :: fs)
    else if key % 8 = 2 then
      match rest with
      | [] => none
      | n :: more =>
        if n ≤ more.length then
          (parse fuel (more.drop n)).map (fun fs => Field.bytes (key / 8) (more.take n) :: fs)
        else none
    else none

/-- The fields of an input, or `none` when it is malformed. -/
def fields (bs : List Nat) : Option (List Field) := parse bs.length bs

/-- The error of the sample decoders. -/
def malformed : MalformedMessage := ⟨"proto: cannot parse invalid wire-format data"⟩

/-- A text field: one character per byte. -/
def text (bs : List Nat) : String := String.mk (bs.map Char.ofNat)

/-- Fill an envelope from its fields: 1 is the payload, 2 the signature. -/
def envelopeOf : List Field → cb.Envelope → cb.Envelope
  | [], e => e
  | Field.bytes 1 bs :: fs, e => envelopeOf fs { e with Payload := some bs }
  | Field.bytes 2 bs :: fs, e => envelopeOf fs { e with Signature := some bs }
  | _ :: fs, e => envelopeOf fs e

/-- Fill a header from its fields: 1 is the channel header, 2 the signature header. -/
def headerOf : List Field → cb.Header → cb.Header
  | [], h => h
  | Field.bytes 1 bs :: fs, h => headerOf fs { h with ChannelHeader := some bs }
  | Field.bytes 2 bs :: fs, h => headerOf fs { h with SignatureHeader := some bs }
  | _ :: fs, h => headerOf fs h

/-- Fill a payload from its fields: 1 is the header (a nested message), 2 the data. -/
def payloadOf : List Field → cb.Payload → Option cb.Payload
  | [], p => some p
  | Field.bytes 1 bs :: fs, p =>
    match fields bs with
    | none => none
    | some hs => payloadOf fs { p with Header := some (headerOf hs ⟨none, none⟩) }
  | Field.bytes 2 bs :: fs, p => payloadOf fs { p with Data := some bs }
  | _ :: fs, p => payloadOf fs p

/-- Fill a timestamp from its fields: 1 is the seconds, 2 the nanoseconds. -/
def timestampOf : List Field → cb.Timestamp → cb.Timestamp
  | [], t => t
  | Field.varint 1 v :: fs, t => timestampOf fs { t with Seconds := v }
  | Field.varint 2 v :: fs, t => timestampOf fs { t with Nanos := v }
  | _ :: fs, t => timestampOf fs t

/-- Fill a channel header from its fields: 1 type, 2 version, 3 timestamp (a nested
message), 4 channel id, 5 transaction id, 6 epoch. -/
def channelHeaderOf : List Field → cb.ChannelHeader → Option cb.ChannelHeader
  | [], h => some h
  | Field.varint 1 v :: fs, h => channelHeaderOf fs { h with Type_ := v }
  | Field.varint 2 v :: fs, h => channelHeaderOf fs { h with Version := v }
  | Field.bytes 3 bs :: fs, h =>
    match fields bs with
    | none => none
    | some ts => channelHeaderOf fs { h with Timestamp := some (timestampOf ts ⟨0, 0⟩) }
  | Field.bytes 4 bs :: fs, h => channelHeaderOf fs { h with ChannelId := text bs }
  | Field.bytes 5 bs :: fs, h => channelHeaderOf fs { h with TxId := text bs }
  | Field.varint 6 v :: fs, h => channelHeaderOf fs { h with Epoch := v }
  | _ :: fs, h => channelHeaderOf fs h

/-- The channel header with no field set. -/
def emptyChannelHeader : cb.ChannelHeader := ⟨0, 0, none, "", "", 0⟩

/-- Sample decoder of an envelope. -/
def UnmarshalEnvelope (bs : List Nat) : Except MalformedMessage cb.Envelope :=
  match fields bs with
  | none => .error malformed
  | some fs => .ok (envelopeOf fs ⟨none, none⟩)

/-- Sample decoder of a payload. -/
def UnmarshalPayload (bs : List Nat) : Except MalformedMessage cb.Payload :=
  match (fields bs).bind (fun fs => payloadOf fs ⟨none, none⟩) with
  | none => .error malformed
  | some p => .ok p

/-- Sample decoder of a channel header. -/
def UnmarshalChannelHeader (bs : List Nat) : Except MalformedMessage cb.ChannelHeader :=
  match (fields bs).bind (fun fs => channelHeaderOf fs emptyChannelHeader) with
  | none => .error malformed
  | some h => .ok h

/-- The sample codec. -/
def codec : Codec := ⟨UnmarshalPayload, UnmarshalChannelHeader, UnmarshalEnvelope⟩

/-- Body decoder for a message of type `Envelope`. -/
def unmarshalBody : ProtoUnmarshal cb.Envelope := fun data _ =>
  match UnmarshalEnvelope data with
  | .error e => (⟨none, none⟩, some e)
  | .ok m => (m, none)

/-- Bytes of the text "bad payload"; they do not decode (the first field runs past
the end of the input). -/
def badBytes : List Nat := [98, 97, 100, 32, 112, 97, 121, 108, 111, 97, 100]

/-- Encoded channel header with only the type set (absent when the type is 0). -/
def chdrBytes (t : Nat) : List Nat := if t = 0 then [] else [8, t]

/-- Encoded payload with a header carrying the given channel header bytes, and the
given data. -/
def payloadBytes (chdr : List Nat) (data : List Nat) : List Nat :=
  [10, chdr.length + 2, 10, chdr.length] ++ chdr ++
    (if data = [] then [] else [18, data.length] ++ data)

/-- Encoded envelope around the given payload bytes. -/
def envelopeBytes (payload : List Nat) : List Nat :=
  if payload = [] then [] else [10, payload.length] ++ payload

end sample

/-! ## Steps 1 to 3 of the header extractor, as the specification words them -/

namespace spec

/-- Steps 1 to 3 of the operation `extractTyped` of the specification: decode the
payload of the envelope (malformed otherwise), require the header of the payload
(missing header otherwise), decode the channel header of the header (malformed
otherwise). -/
def headerSteps (c : Codec) (envelope : cb.Envelope) : Except GoError cb.ChannelHeader :=
  match c.UnmarshalPayload (bytesOf envelope.Payload) with
  | .error e => .error (GoError.malformed e)
  | .ok payload =>
    match payload.Header with
    | none => .error (GoError.new "envelope must have a Header")
    | some header =>
      match c.UnmarshalChannelHeader (bytesOf header.ChannelHeader) with
      | .error e => .error (GoError.malformed e)
      | .ok chdr => .ok chdr

end spec

/-! ## Encoding, time and entropy

The encoder `proto.Marshal`, the clock and the entropy source are outside the
repository; they are parameters of the operations that call them. -/

namespace cb

/-- Modelled from the spec: the LastConfig record (section 3) of the missing protocol
package. -/
structure LastConfig where
  Index : Nat
deriving DecidableEq, Repr

/-- Modelled from the spec: the Metadata record of the missing protocol package that
fills a metadata entry of a block (section 4.6, step 8), with the field the source
sets. -/
structure Metadata where
  Value : GoBytes
deriving DecidableEq, Repr

/-- Modelled from the spec: the orderer-specific block metadata record (section 4.6,
step 8) of the missing protocol package; the last config is a pointer. -/
structure OrdererBlockMetadata where
  LastConfig : Option LastConfig
deriving DecidableEq, Repr

/-- Modelled from the spec: the ConfigUpdateEnvelope record (section 3) of the missing
protocol package, with the field the source reads. -/
structure ConfigUpdateEnvelope where
  ConfigUpdate : GoBytes
deriving DecidableEq, Repr

/-- Modelled from the spec: the Config record of the missing protocol package, whose
channel group is a pointer to a configuration group `G`; the source never looks
inside a group. -/
structure Config (G : Type) where
  ChannelGroup : Option G
deriving DecidableEq, Repr

/-- Modelled from the spec: the ConfigEnvelope record (section 3) of the missing
protocol package; both parts are pointers. -/
structure ConfigEnvelope (G : Type) where
  Config : Option (Config G)
  LastUpdate : Option Envelope
deriving DecidableEq, Repr

/-- Modelled from the spec: position of the SIGNATURES entry in the block metadata
index enumeration (section 6) of the missing protocol package. -/
def BlockMetadataIndex_SIGNATURES : Nat := 0

/-- Modelled from the spec: position of the LAST_CONFIG entry in the block metadata
index enumeration (section 6) of the missing protocol package. -/
def BlockMetadataIndex_LAST_CONFIG : Nat := 1

/-- Modelled from the spec: number of entries of the block metadata index
enumeration (section 6) of the missing protocol package. -/
def BlockMetadataIndex_count : Nat := 5

end cb

namespace proto

/-- The messages handed to the encoder, over a type `G` of configuration groups. -/
inductive Message (G : Type) where
  | channelHeader (m : cb.ChannelHeader)
  | signatureHeader (m : cb.SignatureHeader)
  | payload (m : cb.Payload)
  | envelope (m : cb.Envelope)
  | configEnvelope (m : cb.ConfigEnvelope G)
  | configUpdateEnvelope (m : cb.ConfigUpdateEnvelope)
  | metadata (m : cb.Metadata)
  | lastConfig (m : cb.LastConfig)
  | ordererBlockMetadata (m : cb.OrdererBlockMetadata)

/-- Go `proto.Marshal(pb)`: the bytes and the error. -/
abbrev Marshaler (G : Type) := Message G → GoBytes × Option GoError

end proto

/-- Go `time.Time`: seconds elapsed since the zero time (January 1 of year 1, UTC)
and nanoseconds within the second. -/
structure Time where
  sec : Int
  nsec : Int
deriving DecidableEq, Repr

/-- Go `t.IsZero()`. -/
def Time.IsZero (t : Time) : Bool := decide (t.sec = 0) && decide (t.nsec = 0)

/-- Go `t.Before(u)`. -/
def Time.Before (t u : Time) : Bool :=
  decide (t.sec < u.sec) || (decide (t.sec = u.sec) && decide (t.nsec < u.nsec))

/-- Go `t.Unix()`: seconds since January 1, 1970 UTC. -/
def Time.Unix (t : Time) : Int := t.sec - 62135596800

/-- The entropy source behind Go `rand.Read(b)`: for a buffer of the given length,
the bytes it delivers and the error. -/
structure RandReader where
  Read : Nat → List Nat × Option GoError

/-- The buffer `buf` after the bytes `src` are written at its start; the length of
a buffer does not change. -/
def fill (buf src : List Nat) : List Nat := src.take buf.length ++ buf.drop src.length

/-- Go `s[i] = v` on a slice: aborts when the index is out of range. -/
def setIndex {α : Type} (s : List α) (i : Nat) (v : α) : Go (List α) :=
  if i < s.length then .ok (s.set i v) else .error Panic.indexOutOfRange

namespace protoutil

/-- Go `MarshalOrPanic(pb)`. -/
def MarshalOrPanic {G : Type} (marshal : proto.Marshaler G) (pb : proto.Message G) :
    Go GoBytes :=
  match (marshal pb).2 with
  | some err => .error (Panic.error err)
  | none => .ok (marshal pb).1

/-- Go `Marshal(pb)`. -/
def Marshal {G : Type} (marshal : proto.Marshaler G) (pb : proto.Message G) :
    GoBytes × Option GoError :=
  marshal pb

/-- Go `getRandomNonce()`: a buffer of 24 bytes is handed to the entropy source. -/
def getRandomNonce (rand : RandReader) : GoBytes × Option GoError :=
  let key := List.replicate 24 0
  let r := rand.Read key.length
  match r.2 with
  | some err => (none, errors.Wrap (some err) "error getting random bytes")
  | none => (some (fill key r.1), none)

/-- Go `CreateNonce()`. -/
def CreateNonce (rand : RandReader) : GoBytes × Option GoError :=
  let r := getRandomNonce rand
  (r.1, errors.WithMessage r.2 "error generating random nonce")

/-- Go `CreateNonceOrPanic()`. -/
def CreateNonceOrPanic (rand : RandReader) : Go GoBytes :=
  match (CreateNonce rand).2 with
  | some err => .error (Panic.error err)
  | none => .ok (CreateNonce rand).1

/-- Go `MakeChannelHeader(headerType, version, chainID, epoch)`, at the clock
reading `now`. -/
def MakeChannelHeader (now : Time) (headerType : cb.HeaderType) (version : Int)
    (chainID : String) (epoch : Nat) : cb.ChannelHeader :=
  { Type_ := headerType
    Version := version
    Timestamp := some ⟨now.Unix, 0⟩
    ChannelId := chainID
    TxId := ""
    Epoch := epoch }

/-- Go `MakeSignatureHeader(serializedCreatorCertChain, nonce)`. -/
def MakeSignatureHeader (serializedCreatorCertChain nonce : GoBytes) : cb.SignatureHeader :=
  { Creator := serializedCreatorCertChain
    Nonce := nonce }

/-- Go `SetTxID(channelHeader, signatureHeader)`: the channel header and the
signature header after the call.  Both arguments are read through their pointers;
only the `TxId` field of the channel header is assigned. -/
def SetTxID (ComputeTxID : GoBytes → GoBytes → String)
    (channelHeader : Option cb.ChannelHeader) (signatureHeader : Option cb.SignatureHeader) :
    Go (cb.ChannelHeader × cb.SignatureHeader) :=
  match signatureHeader with
  | none => .error Panic.nilDereference
  | some signatureHeader =>
    match channelHeader with
    | none => .error Panic.nilDereference
    | some channelHeader =>
      .ok ({ channelHeader with
        TxId := ComputeTxID signatureHeader.Nonce signatureHeader.Creator }, signatureHeader)

/-- Go `MakePayloadHeader(ch, sh)`. -/
def MakePayloadHeader {G : Type} (marshal : proto.Marshaler G) (ch : cb.ChannelHeader)
    (sh : cb.SignatureHeader) : Go cb.Header := do
  let channelHeader ← MarshalOrPanic marshal (.channelHeader ch)
  let signatureHeader ← MarshalOrPanic marshal (.signatureHeader sh)
  pure { ChannelHeader := channelHeader, SignatureHeader := signatureHeader }

/-- Modelled from the spec: `protoutil.NewBlock(seqNum, previousHash)`, missing from
the sources.  A block with the given number and previous hash (section 4.6, step
6), an empty data hash, no data yet, an empty metadata entry for each index of the
metadata enumeration (section 3), and no extension. -/
def NewBlock (seqNum : Nat) (previousHash : GoBytes) : cb.Block :=
  { Header := some ⟨seqNum, previousHash, some []⟩
    Data := some ⟨[]⟩
    Metadata := some ⟨List.replicate cb.BlockMetadataIndex_count (some [])⟩
    Extension := none }

/-- Go `EnvelopeToConfigUpdate(configtx)`. -/
def EnvelopeToConfigUpdate (c : Codec) (unmarshal : ProtoUnmarshal cb.ConfigUpdateEnvelope)
    (configtx : Option cb.Envelope) :
    Go (Option cb.ConfigUpdateEnvelope × Option GoError) :=
  let configUpdateEnv : cb.ConfigUpdateEnvelope := ⟨none⟩
  match UnmarshalEnvelopeOfType c unmarshal configtx cb.HeaderType_CONFIG_UPDATE
      configUpdateEnv with
  | .error p => .error p
  | .ok r =>
    match r.err with
    | some err => .ok (none, some err)
    | none => .ok (some r.message, none)

end protoutil

/-! ## The genesis block factory -/

namespace genesis

/-- Message version of the genesis channel header, `int32(1)`. -/
def msgVersion : Int := 1

/-- Epoch of the genesis channel header. -/
def epoch : Nat := 0

/-- What the factory calls outside the repository sources: the encoder, the entropy
source, the clock, and the helpers `protoutil.ComputeTxID` and
`protoutil.BlockDataHash`. -/
structure Collaborators (G : Type) where
  Marshal : proto.Marshaler G
  rand : RandReader
  Now : Time
  ComputeTxID : GoBytes → GoBytes → String
  BlockDataHash : Option cb.BlockData → GoBytes

/-- The factory: it holds the channel configuration group. -/
structure factory (G : Type) where
  channelGroup : Option G

/-- Go `NewFactoryImpl(channelGroup)`. -/
def NewFactoryImpl {G : Type} (channelGroup : Option G) : factory G :=
  { channelGroup := channelGroup }

/-- Go `(f *factory) Block(channelID)`. -/
def factory.Block {G : Type} (x : Collaborators G) (f : factory G) (channelID : String) :
    Go cb.Block := do
  let payloadChannelHeader :=
    protoutil.MakeChannelHeader x.Now cb.HeaderType_CONFIG msgVersion channelID epoch
  let nonce ← protoutil.CreateNonceOrPanic x.rand
  let payloadSignatureHeader := protoutil.MakeSignatureHeader none nonce
  let headers ←
    protoutil.SetTxID x.ComputeTxID (some payloadChannelHeader) (some payloadSignatureHeader)
  let payloadChannelHeader := headers.1
  let payloadSignatureHeader := headers.2
  let payloadHeader ←
    protoutil.MakePayloadHeader x.Marshal payloadChannelHeader payloadSignatureHeader
  let payloadData ← protoutil.MarshalOrPanic x.Marshal
    (.configEnvelope { Config := some { ChannelGroup := f.channelGroup }, LastUpdate := none })
  let payload : cb.Payload := { Header := some payloadHeader, Data := payloadData }
  let envelopePayload ← protoutil.MarshalOrPanic x.Marshal (.payload payload)
  let envelope : cb.Envelope := { Payload := envelopePayload, Signature := none }
  let block := protoutil.NewBlock 0 none
  let blockData ← protoutil.MarshalOrPanic x.Marshal (.envelope envelope)
  let block := { block with Data := some { Data := [blockData] } }
  let extensionData ← protoutil.MarshalOrPanic x.Marshal (.envelope envelope)
  let block := { block with Extension := some { ExtensionData := [extensionData] } }
  let dataHash := x.BlockDataHash block.Data
  let block ←
    match block.Header with
    | none => (.error Panic.nilDereference : Go cb.Block)
    | some header => pure { block with Header := some { header with DataHash := dataHash } }
  let lastConfigValue ← protoutil.MarshalOrPanic x.Marshal (.lastConfig { Index := 0 })
  let lastConfig ← protoutil.MarshalOrPanic x.Marshal (.metadata { Value := lastConfigValue })
  let block ←
    match block.Metadata with
    | none => (.error Panic.nilDereference : Go cb.Block)
    | some metadata => do
      let entries ← setIndex metadata.Metadata cb.BlockMetadataIndex_LAST_CONFIG lastConfig
      pure { block with Metadata := some { Metadata := entries } }
  let signaturesValue ← protoutil.MarshalOrPanic x.Marshal
    (.ordererBlockMetadata { LastConfig := some { Index := 0 } })
  let signatures ← protoutil.MarshalOrPanic x.Marshal (.metadata { Value := signaturesValue })
  let block ←
    match block.Metadata with
    | none => (.error Panic.nilDereference : Go cb.Block)
    | some metadata => do
      let entries ← setIndex metadata.Metadata cb.BlockMetadataIndex_SIGNATURES signatures
      pure { block with Metadata := some { Metadata := entries } }
  pure block

end genesis

/-! ## The expiration rule of the message processor -/

namespace msgprocessor

/-- Modelled from the spec: the signed-data form of an envelope (section 4.7, step
3), creator identity, signed bytes and signature; the type is declared next to the
missing helper `protoutil.EnvelopeAsSignedData`. -/
structure SignedData where
  Data : GoBytes
  Identity : GoBytes
  Signature : GoBytes
deriving DecidableEq, Repr

/-- Modelled from the spec: the capabilities of the orderer configuration (section
6, capability registry). -/
structure OrdererCapabilities where
  ExpirationCheck : Bool
deriving DecidableEq, Repr

/-- Modelled from the spec: the orderer configuration (section 6, capability
registry). -/
structure Orderer where
  Capabilities : OrdererCapabilities
deriving DecidableEq, Repr

/-- The interface `resources`: `OrdererConfig()` returns the orderer configuration
and whether it exists. -/
structure resources where
  OrdererConfig : Orderer × Bool

/-- What the rule calls outside the repository sources: the helper
`protoutil.EnvelopeAsSignedData`, the identity collaborator `crypto.ExpiresAt`, and
the clock `time.Now()`. -/
structure Collaborators where
  EnvelopeAsSignedData : Option cb.Envelope → List SignedData × Option GoError
  ExpiresAt : GoBytes → Time
  Now : Time

/-- The rule: it holds the resources it asks for the orderer configuration. -/
structure expirationRejectRule where
  filterSupport : resources

/-- Go `NewExpirationRejectRule(filterSupport)`. -/
def NewExpirationRejectRule (filterSupport : resources) : expirationRejectRule :=
  { filterSupport := filterSupport }

/-- Go `(exp *expirationRejectRule) Apply(message)`: the returned error, nil on
success.  `logger.Panic` aborts with its message. -/
def expirationRejectRule.Apply (x : Collaborators) (exp : expirationRejectRule)
    (message : Option cb.Envelope) : Go (Option GoError) :=
  let (ordererConf, ok) := exp.filterSupport.OrdererConfig
  if !ok then
    .error (Panic.error (GoError.new "Programming error: orderer config not found"))
  else if !ordererConf.Capabilities.ExpirationCheck then
    .ok none
  else
    let (signedData, err) := x.EnvelopeAsSignedData message
    match err with
    | some err =>
      .ok (some (GoError.new ("could not convert message to signedData: " ++ err.Error)))
    | none =>
      match signedData[0]? with
      | none => .error Panic.indexOutOfRange
      | some first =>
        let expirationTime := x.ExpiresAt first.Identity
        if expirationTime.IsZero || x.Now.Before expirationTime then
          .ok none
        else
          .ok (some (errors.New "broadcast client identity expired"))

end msgprocessor

/-! ## The sample codec, continued: encoders and the remaining collaborators -/

namespace sample

/-- Configuration groups of the sample: a group stands for its encoded bytes. -/
abbrev Group := List Nat

/-- Encode a bytes field; a nil slice leaves the field out. -/
def encBytes (num : Nat) (b : GoBytes) : List Nat :=
  match b with
  | none => []
  | some bs => (8 * num + 2) :: bs.length :: bs

/-- Encode a number field; the value 0 leaves the field out. -/
def encVarint (num v : Nat) : List Nat :=
  if v = 0 then [] else [8 * num, v]

/-- Encode a text field, one byte per character; the empty text leaves the field out. -/
def encText (num : Nat) (s : String) : List Nat :=
  if s = "" then [] else encBytes num (some (s.data.map Char.toNat))

/-- Sample encoding of an envelope. -/
def encEnvelope (m : cb.Envelope) : List Nat :=
  encBytes 1 m.Payload ++ encBytes 2 m.Signature

/-- Sample encoding of a header. -/
def encHeader (m : cb.Header) : List Nat :=
  encBytes 1 m.ChannelHeader ++ encBytes 2 m.SignatureHeader

/-- Sample encoding of a signature header. -/
def encSignatureHeader (m : cb.SignatureHeader) : List Nat :=
  encBytes 1 m.Creator ++ encBytes 2 m.Nonce

/-- Sample encoding of a payload; the header is a nested message. -/
def encPayload (m : cb.Payload) : List Nat :=
  encBytes 1 (m.Header.map encHeader) ++ encBytes 2 m.Data

/-- Sample encoding of a timestamp. -/
def encTimestamp (m : cb.Timestamp) : List Nat :=
  encVarint 1 m.Seconds.toNat ++ encVarint 2 m.Nanos.toNat

/-- Sample encoding of a channel header; the timestamp is a nested message. -/
def encChannelHeader (m : cb.ChannelHeader) : List Nat :=
  encVarint 1 m.Type_.toNat ++ encVarint 2 m.Version.toNat ++
    encBytes 3 (m.Timestamp.map encTimestamp) ++ encText 4 m.ChannelId ++
    encText 5 m.TxId ++ encVarint 6 m.Epoch

/-- Sample encoding of a config; the channel group is field 2. -/
def encConfig (m : cb.Config Group) : List Nat :=
  encBytes 2 m.ChannelGroup

/-- Sample encoding of a config envelope; both parts are nested messages. -/
def encConfigEnvelope (m : cb.ConfigEnvelope Group) : List Nat :=
  encBytes 1 (m.Config.map encConfig) ++ encBytes 2 (m.LastUpdate.map encEnvelope)

/-- Sample encoding of a config update envelope. -/
def encConfigUpdateEnvelope (m : cb.ConfigUpdateEnvelope) : List Nat :=
  encBytes 1 m.ConfigUpdate

/-- Sample encoding of a metadata record. -/
def encMetadata (m : cb.Metadata) : List Nat :=
  encBytes 1 m.Value

/-- Sample encoding of a last config record. -/
def encLastConfig (m : cb.LastConfig) : List Nat :=
  encVarint 1 m.Index

/-- Sample encoding of an orderer block metadata record; the last config is a nested message. -/
def encOrdererBlockMetadata (m : cb.OrdererBlockMetadata) : List Nat :=
  encBytes 1 (m.LastConfig.map encLastConfig)

/-- The sample encoder; it never fails. -/
def Marshal : proto.Marshaler Group
  | .channelHeader m => (some (encChannelHeader m), none)
  | .signatureHeader m => (some (encSignatureHeader m), none)
  | .payload m => (some (encPayload m), none)
  | .envelope m => (some (encEnvelope m), none)
  | .configEnvelope m => (some (encConfigEnvelope m), none)
  | .configUpdateEnvelope m => (some (encConfigUpdateEnvelope m), none)
  | .metadata m => (some (encMetadata m), none)
  | .lastConfig m => (some (encLastConfig m), none)
  | .ordererBlockMetadata m => (some (encOrdererBlockMetadata m), none)

/-- Fill a config update envelope from its fields: 1 is the config update. -/
def configUpdateEnvelopeOf : List Field → cb.ConfigUpdateEnvelope → cb.ConfigUpdateEnvelope
  | [], m => m
  | Field.bytes 1 bs :: fs, _ => configUpdateEnvelopeOf fs ⟨some bs⟩
  | _ :: fs, m => configUpdateEnvelopeOf fs m

/-- Fill a metadata record from its fields: 1 is the value. -/
def metadataOf : List Field → cb.Metadata → cb.Metadata
  | [], m => m
  | Field.bytes 1 bs :: fs, _ => metadataOf fs ⟨some bs⟩
  | _ :: fs, m => metadataOf fs m

/-- Fill a last config record from its fields: 1 is the index. -/
def lastConfigOf : List Field → cb.LastConfig → cb.LastConfig
  | [], m => m
  | Field.varint 1 v :: fs, _ => lastConfigOf fs ⟨v⟩
  | _ :: fs, m => lastConfigOf fs m

/-- Fill an orderer block metadata record from its fields: 1 is the last config (a
nested message). -/
def ordererBlockMetadataOf :
    List Field → cb.OrdererBlockMetadata → Option cb.OrdererBlockMetadata
  | [], m => some m
  | Field.bytes 1 bs :: fs, _ =>
    match fields bs with
    | none => none
    | some ls => ordererBlockMetadataOf fs ⟨some (lastConfigOf ls ⟨0⟩)⟩
  | _ :: fs, m => ordererBlockMetadataOf fs m

/-- Sample body decoder of a config update envelope. -/
def unmarshalConfigUpdateEnvelope : ProtoUnmarshal cb.ConfigUpdateEnvelope := fun data _ =>
  match fields data with
  | none => (⟨none⟩, some malformed)
  | some fs => (configUpdateEnvelopeOf fs ⟨none⟩, none)

/-- Sample decoder of a metadata record. -/
def unmarshalMetadata : ProtoUnmarshal cb.Metadata := fun data _ =>
  match fields data with
  | none => (⟨none⟩, some malformed)
  | some fs => (metadataOf fs ⟨none⟩, none)

/-- Sample decoder of a last config record. -/
def unmarshalLastConfig : ProtoUnmarshal cb.LastConfig := fun data _ =>
  match fields data with
  | none => (⟨0⟩, some malformed)
  | some fs => (lastConfigOf fs ⟨0⟩, none)

/-- Sample decoder of an orderer block metadata record. -/
def unmarshalOrdererBlockMetadata : ProtoUnmarshal cb.OrdererBlockMetadata := fun data _ =>
  match (fields data).bind (fun fs => ordererBlockMetadataOf fs ⟨none⟩) with
  | none => (⟨none⟩, some malformed)
  | some m => (m, none)

/-- An entropy source that delivers the bytes 1, 2, 3, ... -/
def rand : RandReader := ⟨fun n => ((List.range n).map (fun i => i + 1), none)⟩

/-- An entropy source that fails. -/
def noEntropy : RandReader := ⟨fun _ => ([], some (GoError.new "entropy unavailable"))⟩

/-- The nonce drawn from `rand`. -/
def nonce : List Nat :=
  [1, 2, 3, 4, 5, 6, 7, 8, 9, 10, 11, 12, 13, 14, 15, 16, 17, 18, 19, 20, 21, 22, 23, 24]

/-- A clock reading: 1000 seconds after January 1, 1970. -/
def now : Time := ⟨62135597800, 0⟩

/-- A stand-in for the transaction identifier: the text of the nonce followed by
the creator. -/
def ComputeTxID (nonce creator : GoBytes) : String := text (bytesOf nonce ++ bytesOf creator)

/-- A stand-in for the block data hash: the concatenation of the data. -/
def BlockDataHash (data : Option cb.BlockData) : GoBytes :=
  match data with
  | none => none
  | some d => some (d.Data.map bytesOf).flatten

/-- The collaborators of the genesis factory in the sample. -/
def collaborators : genesis.Collaborators Group :=
  ⟨Marshal, rand, now, ComputeTxID, BlockDataHash⟩

/-- Fill a signature header from its fields: 1 is the creator, 2 the nonce. -/
def signatureHeaderOf : List Field → cb.SignatureHeader → cb.SignatureHeader
  | [], h => h
  | Field.bytes 1 bs :: fs, h => signatureHeaderOf fs { h with Creator := some bs }
  | Field.bytes 2 bs :: fs, h => signatureHeaderOf fs { h with Nonce := some bs }
  | _ :: fs, h => signatureHeaderOf fs h

/-- Signed-data extraction of the sample: payload, then header, then signature
header must decode; the identity is the creator. -/
def EnvelopeAsSignedData (env : Option cb.Envelope) :
    List msgprocessor.SignedData × Option GoError :=
  match env with
  | none => ([], some (GoError.new "No signatures for nil Envelope"))
  | some env =>
    match UnmarshalPayload (bytesOf env.Payload) with
    | .error e => ([], some (GoError.malformed e))
    | .ok payload =>
      match payload.Header with
      | none => ([], some (GoError.new "Missing Header"))
      | some header =>
        match fields (bytesOf header.SignatureHeader) with
        | none => ([], some (GoError.malformed malformed))
        | some fs =>
          ([⟨env.Payload, (signatureHeaderOf fs ⟨none, none⟩).Creator, env.Signature⟩], none)

/-- Expiration times of the sample: the identity `[n]` expires `n` seconds after
the zero time; any other identity never expires. -/
def ExpiresAt (identity : GoBytes) : Time :=
  match identity with
  | some [n] => ⟨n, 0⟩
  | _ => ⟨0, 0⟩

/-- The collaborators of the expiration rule in the sample, at clock reading `t`. -/
def ruleCollaborators (t : Time) : msgprocessor.Collaborators :=
  ⟨EnvelopeAsSignedData, ExpiresAt, t⟩

/-- A rule whose orderer configuration exists, with the capability as given. -/
def rule (active : Bool) : msgprocessor.expirationRejectRule :=
  msgprocessor.NewExpirationRejectRule ⟨(⟨⟨active⟩⟩, true)⟩

/-- The channel header of the config update test: type CONFIG_UPDATE on channel
"test-chain". -/
def configUpdateHeader : cb.ChannelHeader :=
  { emptyChannelHeader with Type_ := 2, ChannelId := "test-chain" }

/-- The payload of the config update test, around the given data. -/
def configUpdatePayload (data : GoBytes) : cb.Payload :=
  ⟨some ⟨some (encChannelHeader configUpdateHeader), none⟩, data⟩

/-- The envelope of the config update test, around the given data. -/
def configUpdateEnvelope (data : GoBytes) : cb.Envelope :=
  ⟨some (encPayload (configUpdatePayload data)), none⟩

/-- An envelope signed by the identity `[n]`. -/
def signedEnvelope (n : Nat) : cb.Envelope :=
  ⟨some (encPayload ⟨some ⟨none, some (encSignatureHeader ⟨some [n], none⟩)⟩, none⟩), none⟩

end sample

/-! ## The decoders of the configtx package -/

namespace configtx

/-- Go `proto.Unmarshal` at the four message types this package decodes, taken as
parameters.  The ConfigUpdate record is declared in the missing protocol package
and the source never reads a field of it: it is a type `U`, with `emptyConfigUpdate`
for the message `&ConfigUpdate{}`. -/
structure Decoders (G U : Type) where
  Config : ProtoUnmarshal (cb.Config G)
  ConfigUpdate : ProtoUnmarshal U
  emptyConfigUpdate : U
  ConfigUpdateEnvelope : ProtoUnmarshal cb.ConfigUpdateEnvelope
  ConfigEnvelope : ProtoUnmarshal (cb.ConfigEnvelope G)

/-- Go `UnmarshalConfig(data)`. -/
def UnmarshalConfig {G U : Type} (d : Decoders G U) (data : GoBytes) :
    Option (cb.Config G) × Option GoError :=
  let config : cb.Config G := ⟨none⟩
  let r := d.Config (bytesOf data) config
  match r.2 with
  | some err => (none, some (GoError.malformed err))
  | none => (some r.1, none)

/-- Go `UnmarshalConfigOrPanic(data)`. -/
def UnmarshalConfigOrPanic {G U : Type} (d : Decoders G U) (data : GoBytes) :
    Go (Option (cb.Config G)) :=
  let (result, err) := UnmarshalConfig d data
  match err with
  | some err => .error (Panic.error err)
  | none => .ok result

/-- Go `UnmarshalConfigUpdate(data)`. -/
def UnmarshalConfigUpdate {G U : Type} (d : Decoders G U) (data : GoBytes) :
    Option U × Option GoError :=
  let configUpdate : U := d.emptyConfigUpdate
  let r := d.ConfigUpdate (bytesOf data) configUpdate
  match r.2 with
  | some err => (none, some (GoError.malformed err))
  | none => (some r.1, none)

/-- Go `UnmarshalConfigUpdateOrPanic(data)`. -/
def UnmarshalConfigUpdateOrPanic {G U : Type} (d : Decoders G U) (data : GoBytes) :
    Go (Option U) :=
  let (result, err) := UnmarshalConfigUpdate d data
  match err with
  | some err => .error (Panic.error err)
  | none => .ok result

/-- Go `UnmarshalConfigUpdateEnvelope(data)`. -/
def UnmarshalConfigUpdateEnvelope {G U : Type} (d : Decoders G U) (data : GoBytes) :
    Option cb.ConfigUpdateEnvelope × Option GoError :=
  let configUpdateEnvelope : cb.ConfigUpdateEnvelope := ⟨none⟩
  let r := d.ConfigUpdateEnvelope (bytesOf data) configUpdateEnvelope
  match r.2 with
  | some err => (none, some (GoError.malformed err))
  | none => (some r.1, none)

/-- Go `UnmarshalConfigUpdateEnvelopeOrPanic(data)`. -/
def UnmarshalConfigUpdateEnvelopeOrPanic {G U : Type} (d : Decoders G U) (data : GoBytes) :
    Go (Option cb.ConfigUpdateEnvelope) :=
  let (result, err) := UnmarshalConfigUpdateEnvelope d data
  match err with
  | some err => .error (Panic.error err)
  | none => .ok result

/-- Go `UnmarshalConfigEnvelope(data)`. -/
def UnmarshalConfigEnvelope {G U : Type} (d : Decoders G U) (data : GoBytes) :
    Option (cb.ConfigEnvelope G) × Option GoError :=
  let configEnv : cb.ConfigEnvelope G := ⟨none, none⟩
  let r := d.ConfigEnvelope (bytesOf data) configEnv
  match r.2 with
  | some err => (none, some (GoError.malformed err))
  | none => (some r.1, none)

/-- Go `UnmarshalConfigEnvelopeOrPanic(data)`. -/
def UnmarshalConfigEnvelopeOrPanic {G U : Type} (d : Decoders G U) (data : GoBytes) :
    Go (Option (cb.ConfigEnvelope G)) :=
  let (result, err) := UnmarshalConfigEnvelope d data
  match err with
  | some err => .error (Panic.error err)
  | none => .ok result

/-- Go `UnmarshalConfigUpdateFromPayload(payload)`.  The payload, the decoded config
envelope and the decoded config update envelope are read through their pointers. -/
def UnmarshalConfigUpdateFromPayload {G U : Type} (c : Codec) (d : Decoders G U)
    (payload : Option cb.Payload) : Go (Option U × Option GoError) :=
  match payload with
  | none => .error Panic.nilDereference
  | some payload =>
    let (configEnv, err) := UnmarshalConfigEnvelope d payload.Data
    match err with
    | some err => .ok (none, some err)
    | none =>
      match configEnv with
      | none => .error Panic.nilDereference
      | some configEnv =>
        match protoutil.EnvelopeToConfigUpdate c d.ConfigUpdateEnvelope configEnv.LastUpdate with
        | .error p => .error p
        | .ok (configUpdateEnv, err) =>
          match err with
          | some err => .ok (none, some err)
          | none =>
            match configUpdateEnv with
            | none => .error Panic.nilDereference
            | some configUpdateEnv => .ok (UnmarshalConfigUpdate d configUpdateEnv.ConfigUpdate)

end configtx

/-! ## The sample codec, continued: the decoders of the configtx package -/

namespace sample

/-- Config updates of the sample: an update stands for its decoded fields. -/
abbrev Update := List Field

/-- Fill a config from its fields: 2 is the channel group. -/
def configOf : List Field → cb.Config Group → cb.Config Group
  | [], m => m
  | Field.bytes 2 bs :: fs, _ => configOf fs ⟨some bs⟩
  | _ :: fs, m => configOf fs m

/-- Fill a config envelope from its fields: 1 is the config, 2 the last update (both
nested messages). -/
def configEnvelopeOf :
    List Field → cb.ConfigEnvelope Group → Option (cb.ConfigEnvelope Group)
  | [], m => some m
  | Field.bytes 1 bs :: fs, m =>
    match fields bs with
    | none => none
    | some cs => configEnvelopeOf fs { m with Config := some (configOf cs ⟨none⟩) }
  | Field.bytes 2 bs :: fs, m =>
    match fields bs with
    | none => none
    | some es => configEnvelopeOf fs { m with LastUpdate := some (envelopeOf es ⟨none, none⟩) }
  | _ :: fs, m => configEnvelopeOf fs m

/-- Sample decoder of a config. -/
def unmarshalConfig : ProtoUnmarshal (cb.Config Group) := fun data _ =>
  match fields data with
  | none => (⟨none⟩, some malformed)
  | some fs => (configOf fs ⟨none⟩, none)

/-- Sample decoder of a config update. -/
def unmarshalConfigUpdate : ProtoUnmarshal Update := fun data _ =>
  match fields data with
  | none => ([], some malformed)
  | some fs => (fs, none)

/-- Sample decoder of a config envelope. -/
def unmarshalConfigEnvelope : ProtoUnmarshal (cb.ConfigEnvelope Group) := fun data _ =>
  match (fields data).bind (fun fs => configEnvelopeOf fs ⟨none, none⟩) with
  | none => (⟨none, none⟩, some malformed)
  | some m => (m, none)

/-- The decoders of the configtx package in the sample. -/
def decoders : configtx.Decoders Group Update :=
  ⟨unmarshalConfig, unmarshalConfigUpdate, [], unmarshalConfigUpdateEnvelope,
    unmarshalConfigEnvelope⟩

/-- Channel headers that the sample encoding represents: the numbers are not
negative. -/
def representable (h : cb.ChannelHeader) : Prop :=
  0 ≤ h.Type_ ∧ 0 ≤ h.Version ∧
    ∀ t, h.Timestamp = some t → 0 ≤ t.Seconds ∧ 0 ≤ t.Nanos

/-- Compact encoding of a metadata record: an empty value is left out as a nil one
is, so that the two are encoded alike. -/
def encMetadataCompact (m : cb.Metadata) : List Nat :=
  match bytesOf m.Value with
  | [] => []
  | b :: bs => encBytes 1 (some (b :: bs))

/-- The compact sample encoder: the sample encoder, with metadata records in the
compact encoding; it never fails. -/
def MarshalCompact : proto.Marshaler Group
  | .channelHeader m => (some (encChannelHeader m), none)
  | .signatureHeader m => (some (encSignatureHeader m), none)
  | .payload m => (some (encPayload m), none)
  | .envelope m => (some (encEnvelope m), none)
  | .configEnvelope m => (some (encConfigEnvelope m), none)
  | .configUpdateEnvelope m => (some (encConfigUpdateEnvelope m), none)
  | .metadata m => (some (encMetadataCompact m), none)
  | .lastConfig m => (some (encLastConfig m), none)
  | .ordererBlockMetadata m => (some (encOrdererBlockMetadata m), none)

/-- The collaborators of the genesis factory in the sample, with the compact encoder. -/
def compactCollaborators : genesis.Collaborators Group :=
  ⟨MarshalCompact, rand, now, ComputeTxID, BlockDataHash⟩

end sample

/-! ## Header extraction and type validation -/

/-- C1. For every envelope whose payload decodes, whose header is present and whose
channel header decodes to a type different from the expected one,
`UnmarshalEnvelopeOfType` returns no channel header and the type check error that
names the actual and the expected type; the result is the same for every body
decoder and the `message` argument is handed back untouched, so the body is never
decoded. -/
theorem UnmarshalEnvelopeOfType_rejects_wrong_type {M : Type} (c : Codec)
    (unmarshal : ProtoUnmarshal M) (envelope : cb.Envelope) (headerType : cb.HeaderType)
    (message : M) (payload : cb.Payload) (header : cb.Header) (chdr : cb.ChannelHeader)
    (hp : c.UnmarshalPayload (bytesOf envelope.Payload) = .ok payload)
    (hh : payload.Header = some header)
    (hc : c.UnmarshalChannelHeader (bytesOf header.ChannelHeader) = .ok chdr)
    (ht : chdr.Type_ ≠ headerType) :
    protoutil.UnmarshalEnvelopeOfType c unmarshal (some envelope) headerType message =
      .ok ⟨none,
        some (GoError.new ("invalid type " ++ cb.HeaderTypeString chdr.Type_ ++
          ", expected " ++ cb.HeaderTypeString headerType)),
        message⟩ := by
  simp only [protoutil.UnmarshalEnvelopeOfType, hp, hh, hc]
  rw [if_pos ht]
  rfl

/-- The test case of C1: a CHAINCODE_PACKAGE channel header requested as CONFIG. -/
theorem UnmarshalEnvelopeOfType_rejects_wrong_type_witness :
    protoutil.UnmarshalEnvelopeOfType sample.codec sample.unmarshalBody
        (some ⟨some (sample.payloadBytes (sample.chdrBytes 6) []), none⟩)
        cb.HeaderType_CONFIG ⟨none, none⟩ =
      .ok ⟨none, some (GoError.new "invalid type CHAINCODE_PACKAGE, expected CONFIG"),
        ⟨none, none⟩⟩ :=
  UnmarshalEnvelopeOfType_rejects_wrong_type sample.codec sample.unmarshalBody
    ⟨some (sample.payloadBytes (sample.chdrBytes 6) []), none⟩ cb.HeaderType_CONFIG ⟨none, none⟩
    ⟨some ⟨some [8, 6], none⟩, none⟩ ⟨some [8, 6], none⟩
    { sample.emptyChannelHeader with Type_ := 6 } rfl rfl rfl (by decide)

/-- C2. For every envelope whose payload decodes, whose header is present, whose
channel header decodes to a header of exactly the expected type and whose payload
data decodes into the supplied message, `UnmarshalEnvelopeOfType` returns no error
and exactly the decoded channel header (and leaves the decoded body in `message`). -/
theorem UnmarshalEnvelopeOfType_succeeds {M : Type} (c : Codec)
    (unmarshal : ProtoUnmarshal M) (envelope : cb.Envelope) (headerType : cb.HeaderType)
    (message : M) (payload : cb.Payload) (header : cb.Header) (chdr : cb.ChannelHeader)
    (hp : c.UnmarshalPayload (bytesOf envelope.Payload) = .ok payload)
    (hh : payload.Header = some header)
    (hc : c.UnmarshalChannelHeader (bytesOf header.ChannelHeader) = .ok chdr)
    (ht : chdr.Type_ = headerType)
    (hd : (unmarshal (bytesOf payload.Data) message).2 = none) :
    protoutil.UnmarshalEnvelopeOfType c unmarshal (some envelope) headerType message =
      .ok ⟨some chdr, none, (unmarshal (bytesOf payload.Data) message).1⟩ := by
  simp only [protoutil.UnmarshalEnvelopeOfType, hp, hh, hc]
  rw [if_neg (not_not.mpr ht), hd]
  rfl

/-- The test case of C2: a CONFIG channel header on channel "ch", requested as
CONFIG, with an empty body; the returned header keeps the channel id. -/
theorem UnmarshalEnvelopeOfType_succeeds_witness :
    protoutil.UnmarshalEnvelopeOfType sample.codec sample.unmarshalBody
        (some ⟨some (sample.payloadBytes [8, 1, 34, 2, 99, 104] []), none⟩)
        cb.HeaderType_CONFIG ⟨some [7], none⟩ =
      .ok ⟨some { sample.emptyChannelHeader with Type_ := 1, ChannelId := "ch" }, none,
        ⟨none, none⟩⟩ :=
  UnmarshalEnvelopeOfType_succeeds sample.codec sample.unmarshalBody
    ⟨some (sample.payloadBytes [8, 1, 34, 2, 99, 104] []), none⟩ cb.HeaderType_CONFIG
    ⟨some [7], none⟩
    ⟨some ⟨some [8, 1, 34, 2, 99, 104], none⟩, none⟩ ⟨some [8, 1, 34, 2, 99, 104], none⟩
    { sample.emptyChannelHeader with Type_ := 1, ChannelId := "ch" } rfl rfl rfl rfl rfl

/-- C3. For every envelope whose payload decodes with a header present but whose
channel header bytes do not decode, and for every expected type,
`UnmarshalEnvelopeOfType` returns the channel header decode error, which is not a
type check error; and whenever `UnmarshalEnvelopeOfType` returns the missing-header
error, the payload has decoded and has no header. -/
theorem UnmarshalEnvelopeOfType_failure_ordering {M : Type} (c : Codec)
    (unmarshal : ProtoUnmarshal M) (envelope : cb.Envelope) (message : M)
    (payload : cb.Payload) (header : cb.Header) (e : MalformedMessage)
    (hp : c.UnmarshalPayload (bytesOf envelope.Payload) = .ok payload)
    (hh : payload.Header = some header)
    (hc : c.UnmarshalChannelHeader (bytesOf header.ChannelHeader) = .error e) :
    (∀ headerType : cb.HeaderType,
      protoutil.UnmarshalEnvelopeOfType c unmarshal (some envelope) headerType message =
        .ok ⟨none, some (GoError.malformed e), message⟩ ∧
      ∀ actual expected : cb.HeaderType,
        GoError.malformed e ≠ protoutil.invalidTypeError actual expected) ∧
    (∀ (env : Option cb.Envelope) (headerType : cb.HeaderType) (msg : M)
        (r : protoutil.EnvelopeOfType M),
      protoutil.UnmarshalEnvelopeOfType c unmarshal env headerType msg = .ok r →
      r.err = some (errors.New "envelope must have a Header") →
      ∃ env0 p, env = some env0 ∧ c.UnmarshalPayload (bytesOf env0.Payload) = .ok p ∧
        p.Header = none) := by
  refine ⟨fun headerType => ⟨?_, ?_⟩, ?_⟩
  · simp only [protoutil.UnmarshalEnvelopeOfType, hp, hh, hc]
  · intro actual expected h
    simp [protoutil.invalidTypeError] at h
  · intro env headerType msg r hr herr
    cases env with
    | none => simp [protoutil.UnmarshalEnvelopeOfType] at hr
    | some env0 =>
      refine ⟨env0, ?_⟩
      simp only [protoutil.UnmarshalEnvelopeOfType] at hr
      cases hpay : c.UnmarshalPayload (bytesOf env0.Payload) with
      | error e1 =>
        rw [hpay] at hr
        simp only [Except.ok.injEq] at hr
        subst hr
        simp [errors.New] at herr
      | ok p =>
        rw [hpay] at hr
        simp only at hr
        refine ⟨p, rfl, rfl, ?_⟩
        cases hhd : p.Header with
        | none => rfl
        | some h1 =>
          exfalso
          rw [hhd] at hr
          simp only at hr
          cases hch : c.UnmarshalChannelHeader (bytesOf h1.ChannelHeader) with
          | error e2 =>
            rw [hch] at hr
            simp only [Except.ok.injEq] at hr
            subst hr
            simp [errors.New] at herr
          | ok ch =>
            rw [hch] at hr
            simp only at hr
            split at hr
            · simp only [Except.ok.injEq] at hr
              subst hr
              simp only [protoutil.invalidTypeError, errors.New, Option.some.injEq,
                GoError.new.injEq] at herr
              have hd := congrArg String.data herr
              simp [String.data_append] at hd
            · simp only [Except.ok.injEq] at hr
              subst hr
              cases hb : (unmarshal (bytesOf p.Data) msg).2 with
              | none => simp [hb, errors.Wrap] at herr
              | some e3 => simp [hb, errors.Wrap, errors.New] at herr

/-- The test case of C3: the channel header bytes are the text "bad payload". -/
theorem UnmarshalEnvelopeOfType_failure_ordering_witness :
    protoutil.UnmarshalEnvelopeOfType sample.codec sample.unmarshalBody
        (some ⟨some (sample.payloadBytes sample.badBytes []), none⟩)
        cb.HeaderType_CONFIG ⟨none, none⟩ =
      .ok ⟨none, some (GoError.malformed sample.malformed), ⟨none, none⟩⟩ :=
  ((UnmarshalEnvelopeOfType_failure_ordering sample.codec sample.unmarshalBody
    ⟨some (sample.payloadBytes sample.badBytes []), none⟩ ⟨none, none⟩
    ⟨some ⟨some sample.badBytes, none⟩, none⟩ ⟨some sample.badBytes, none⟩
    sample.malformed rfl rfl rfl).1 cb.HeaderType_CONFIG).1

/-- C4. For every envelope, expected type and body message: if the payload bytes
decode to a payload with no header, `UnmarshalEnvelopeOfType` fails with the error
"envelope must have a Header" and returns no channel header; if the payload bytes
do not decode, it fails with the payload decode error and returns no channel
header. -/
theorem UnmarshalEnvelopeOfType_requires_header {M : Type} (c : Codec)
    (unmarshal : ProtoUnmarshal M) (envelope : cb.Envelope) (headerType : cb.HeaderType)
    (message : M) :
    (∀ payload, c.UnmarshalPayload (bytesOf envelope.Payload) = .ok payload →
      payload.Header = none →
      protoutil.UnmarshalEnvelopeOfType c unmarshal (some envelope) headerType message =
        .ok ⟨none, some (GoError.new "envelope must have a Header"), message⟩) ∧
    (∀ e, c.UnmarshalPayload (bytesOf envelope.Payload) = .error e →
      protoutil.UnmarshalEnvelopeOfType c unmarshal (some envelope) headerType message =
        .ok ⟨none, some (GoError.malformed e), message⟩) := by
  constructor
  · intro payload hp hh
    simp only [protoutil.UnmarshalEnvelopeOfType, hp, hh, errors.New]
  · intro e hp
    simp only [protoutil.UnmarshalEnvelopeOfType, hp]

/-- The two test cases of C4: a payload encoded without a header (the empty
encoding), and the payload bytes "bad payload". -/
theorem UnmarshalEnvelopeOfType_requires_header_witness :
    protoutil.UnmarshalEnvelopeOfType sample.codec sample.unmarshalBody
        (some ⟨some [], none⟩) cb.HeaderType_CONFIG ⟨none, none⟩ =
      .ok ⟨none, some (GoError.new "envelope must have a Header"), ⟨none, none⟩⟩ ∧
    protoutil.UnmarshalEnvelopeOfType sample.codec sample.unmarshalBody
        (some ⟨some sample.badBytes, none⟩) cb.HeaderType_CONFIG ⟨none, none⟩ =
      .ok ⟨none, some (GoError.malformed sample.malformed), ⟨none, none⟩⟩ :=
  ⟨(UnmarshalEnvelopeOfType_requires_header sample.codec sample.unmarshalBody
      ⟨some [], none⟩ cb.HeaderType_CONFIG ⟨none, none⟩).1 ⟨none, none⟩ rfl rfl,
   (UnmarshalEnvelopeOfType_requires_header sample.codec sample.unmarshalBody
      ⟨some sample.badBytes, none⟩ cb.HeaderType_CONFIG ⟨none, none⟩).2 sample.malformed rfl⟩

/-- C5. For every envelope that passes payload decoding, header presence, channel
header decoding and the type check, if the payload data does not decode into the
supplied message then `UnmarshalEnvelopeOfType` returns a non-nil error, the body
decode error wrapped as "error unmarshaling message for type T" (next to the
decoded channel header). -/
theorem UnmarshalEnvelopeOfType_rejects_bad_body {M : Type} (c : Codec)
    (unmarshal : ProtoUnmarshal M) (envelope : cb.Envelope) (headerType : cb.HeaderType)
    (message : M) (payload : cb.Payload) (header : cb.Header) (chdr : cb.ChannelHeader)
    (e : MalformedMessage)
    (hp : c.UnmarshalPayload (bytesOf envelope.Payload) = .ok payload)
    (hh : payload.Header = some header)
    (hc : c.UnmarshalChannelHeader (bytesOf header.ChannelHeader) = .ok chdr)
    (ht : chdr.Type_ = headerType)
    (hd : (unmarshal (bytesOf payload.Data) message).2 = some e) :
    protoutil.UnmarshalEnvelopeOfType c unmarshal (some envelope) headerType message =
      .ok ⟨some chdr,
        some (GoError.wrap (GoError.malformed e)
          ("error unmarshaling message for type " ++ cb.HeaderTypeString headerType)),
        (unmarshal (bytesOf payload.Data) message).1⟩ := by
  simp only [protoutil.UnmarshalEnvelopeOfType, hp, hh, hc]
  rw [if_neg (not_not.mpr ht), hd]
  rfl

/-- The test case of C5: a CONFIG channel header requested as CONFIG, with the
payload data "bad payload". -/
theorem UnmarshalEnvelopeOfType_rejects_bad_body_witness :
    protoutil.UnmarshalEnvelopeOfType sample.codec sample.unmarshalBody
        (some ⟨some (sample.payloadBytes (sample.chdrBytes 1) sample.badBytes), none⟩)
        cb.HeaderType_CONFIG ⟨none, none⟩ =
      .ok ⟨some { sample.emptyChannelHeader with Type_ := 1 },
        some (GoError.wrap (GoError.malformed sample.malformed)
          "error unmarshaling message for type CONFIG"),
        ⟨none, none⟩⟩ :=
  UnmarshalEnvelopeOfType_rejects_bad_body sample.codec sample.unmarshalBody
    ⟨some (sample.payloadBytes (sample.chdrBytes 1) sample.badBytes), none⟩
    cb.HeaderType_CONFIG ⟨none, none⟩
    ⟨some ⟨some [8, 1], none⟩, some sample.badBytes⟩ ⟨some [8, 1], none⟩
    { sample.emptyChannelHeader with Type_ := 1 } sample.malformed rfl rfl rfl rfl rfl

/-! ## Config classification -/

/-- The envelope at index 0 of a block with data `first :: rest` depends on `first` only. -/
theorem ExtractEnvelope_zero_cons (c : Codec) (block : cb.Block) (data : cb.BlockData)
    (first : GoBytes) (rest : List GoBytes)
    (hd : block.Data = some data) (hf : data.Data = first :: rest) :
    protoutil.ExtractEnvelope c (some block) 0 =
      match c.GetEnvelopeFromBlock (bytesOf first) with
      | .ok envelope => .ok (some envelope, none)
      | .error err =>
        .ok (none, some (GoError.withMessage (GoError.malformed err)
          "block data does not carry an envelope at index 0")) := by
  simp only [protoutil.ExtractEnvelope, hd, hf]
  simp
  rfl

/-- What `IsConfigBlock` computes from the bytes at index 0. -/
theorem IsConfigBlock_cons (c : Codec) (block : cb.Block) (data : cb.BlockData)
    (first : GoBytes) (rest : List GoBytes)
    (hd : block.Data = some data) (hf : data.Data = first :: rest) :
    protoutil.IsConfigBlock c (some block) =
      match c.GetEnvelopeFromBlock (bytesOf first) with
      | .error _ => .ok false
      | .ok envelope =>
        match c.UnmarshalPayload (bytesOf envelope.Payload) with
        | .error _ => .ok false
        | .ok payload =>
          match payload.Header with
          | none => .ok false
          | some header =>
            match c.UnmarshalChannelHeader (bytesOf header.ChannelHeader) with
            | .error _ => .ok false
            | .ok hdr =>
              .ok (decide (hdr.Type_ = cb.HeaderType_CONFIG) ||
                decide (hdr.Type_ = cb.HeaderType_ORDERER_TRANSACTION)) := by
  simp only [protoutil.IsConfigBlock, ExtractEnvelope_zero_cons c block data first rest hd hf]
  cases c.GetEnvelopeFromBlock (bytesOf first) <;> rfl

/-- A block without data, or with an empty data sequence, is not a config block. -/
theorem IsConfigBlock_no_data (c : Codec) (block : cb.Block)
    (h : block.Data = none ∨ ∃ data, block.Data = some data ∧ data.Data = []) :
    protoutil.IsConfigBlock c (some block) = .ok false := by
  rcases h with h | ⟨data, hd, hf⟩
  · simp [protoutil.IsConfigBlock, protoutil.ExtractEnvelope, h]
  · simp [protoutil.IsConfigBlock, protoutil.ExtractEnvelope, hd, hf]

/-- C6. For every block, `IsConfigBlock` returns (it never aborts and has no error
result), and it returns true if and only if the block has data with at least one
element, the bytes at index 0 decode to an envelope, that envelope's payload
decodes, the payload has a header, the header's channel header decodes, and the
decoded type is CONFIG or ORDERER_TRANSACTION; in every other case it returns
false. -/
theorem IsConfigBlock_characterisation (c : Codec) (block : cb.Block) :
    (protoutil.IsConfigBlock c (some block) = .ok true ∨
      protoutil.IsConfigBlock c (some block) = .ok false) ∧
    (protoutil.IsConfigBlock c (some block) = .ok true ↔
      ∃ data first rest envelope payload header chdr,
        block.Data = some data ∧ data.Data = first :: rest ∧
        c.GetEnvelopeFromBlock (bytesOf first) = .ok envelope ∧
        c.UnmarshalPayload (bytesOf envelope.Payload) = .ok payload ∧
        payload.Header = some header ∧
        c.UnmarshalChannelHeader (bytesOf header.ChannelHeader) = .ok chdr ∧
        (chdr.Type_ = cb.HeaderType_CONFIG ∨
          chdr.Type_ = cb.HeaderType_ORDERER_TRANSACTION)) := by
  cases hd : block.Data with
  | none =>
    have h := IsConfigBlock_no_data c block (Or.inl hd)
    refine ⟨Or.inr h, ?_⟩
    rw [h]
    constructor
    · intro hc
      cases hc
    · rintro ⟨data, _, _, _, _, _, _, h1, _⟩
      cases h1
  | some data =>
    cases hf : data.Data with
    | nil =>
      have h := IsConfigBlock_no_data c block (Or.inr ⟨data, hd, hf⟩)
      refine ⟨Or.inr h, ?_⟩
      rw [h]
      constructor
      · intro hc
        cases hc
      · rintro ⟨data1, _, _, _, _, _, _, h1, h2, _⟩
        cases h1
        rw [hf] at h2
        cases h2
    | cons first rest =>
      rw [IsConfigBlock_cons c block data first rest hd hf]
      cases he : c.GetEnvelopeFromBlock (bytesOf first) with
      | error e =>
        simp only
        refine ⟨Or.inr trivial, ?_⟩
        constructor
        · intro hq
          cases hq
        · rintro ⟨data1, f1, r1, env1, _, _, _, h1, h2, h3, _⟩
          cases h1
          rw [hf] at h2
          cases h2
          rw [he] at h3
          cases h3
      | ok envelope =>
        simp only
        cases hp : c.UnmarshalPayload (bytesOf envelope.Payload) with
        | error e =>
          simp only
          refine ⟨Or.inr trivial, ?_⟩
          constructor
          · intro hq
            cases hq
          · rintro ⟨data1, f1, r1, env1, p1, _, _, h1, h2, h3, h4, _⟩
            cases h1
            rw [hf] at h2
            cases h2
            rw [he] at h3
            cases h3
            rw [hp] at h4
            cases h4
        | ok payload =>
          simp only
          cases hh : payload.Header with
          | none =>
            simp only
            refine ⟨Or.inr trivial, ?_⟩
            constructor
            · intro hq
              cases hq
            · rintro ⟨data1, f1, r1, env1, p1, hd1, _, h1, h2, h3, h4, h5, _⟩
              cases h1
              rw [hf] at h2
              cases h2
              rw [he] at h3
              cases h3
              rw [hp] at h4
              cases h4
              rw [hh] at h5
              cases h5
          | some header =>
            simp only
            cases hc : c.UnmarshalChannelHeader (bytesOf header.ChannelHeader) with
            | error e =>
              simp only
              refine ⟨Or.inr trivial, ?_⟩
              constructor
              · intro hq
                cases hq
              · rintro ⟨data1, f1, r1, env1, p1, hd1, ch1, h1, h2, h3, h4, h5, h6, _⟩
                cases h1
                rw [hf] at h2
                cases h2
                rw [he] at h3
                cases h3
                rw [hp] at h4
                cases h4
                rw [hh] at h5
                cases h5
                rw [hc] at h6
                cases h6
            | ok chdr =>
              simp only
              constructor
              · cases (decide (chdr.Type_ = cb.HeaderType_CONFIG) ||
                  decide (chdr.Type_ = cb.HeaderType_ORDERER_TRANSACTION))
                · exact Or.inr rfl
                · exact Or.inl rfl
              · constructor
                · intro hq
                  refine ⟨data, first, rest, envelope, payload, header, chdr, rfl, hf, he, hp,
                    hh, hc, ?_⟩
                  simpa using hq
                · rintro ⟨data1, f1, r1, env1, p1, hd1, ch1, h1, h2, h3, h4, h5, h6, h7⟩
                  cases h1
                  rw [hf] at h2
                  cases h2
                  rw [he] at h3
                  cases h3
                  rw [hp] at h4
                  cases h4
                  rw [hh] at h5
                  cases h5
                  rw [hc] at h6
                  cases h6
                  simpa using h7

/-- C7. For any two blocks whose data sequences are both non-empty and carry the
same bytes at index 0, `IsConfigBlock` returns the same result, whatever the later
elements, the block header, the metadata and the extension are. -/
theorem IsConfigBlock_first_only (c : Codec) (b1 b2 : cb.Block) (d1 d2 : cb.BlockData)
    (f1 f2 : GoBytes) (r1 r2 : List GoBytes)
    (h1 : b1.Data = some d1) (h2 : b2.Data = some d2)
    (hf1 : d1.Data = f1 :: r1) (hf2 : d2.Data = f2 :: r2)
    (hsame : bytesOf f1 = bytesOf f2) :
    protoutil.IsConfigBlock c (some b1) = protoutil.IsConfigBlock c (some b2) := by
  rw [IsConfigBlock_cons c b1 d1 f1 r1 h1 hf1, IsConfigBlock_cons c b2 d2 f2 r2 h2 hf2, hsame]

/-- The example of C7: a block whose first envelope is MESSAGE and whose second is
CONFIG classifies like the block with the MESSAGE envelope alone, as false. -/
theorem IsConfigBlock_first_only_witness :
    protoutil.IsConfigBlock sample.codec
        (some ⟨some ⟨7, some [1], some [2]⟩,
          some ⟨[some (sample.envelopeBytes (sample.payloadBytes [34, 2, 99, 104] [])),
                 some (sample.envelopeBytes (sample.payloadBytes [8, 1, 34, 2, 99, 104] []))]⟩,
          some ⟨[some [3]]⟩, some ⟨[some [4]]⟩⟩) =
      protoutil.IsConfigBlock sample.codec
        (some ⟨none,
          some ⟨[some (sample.envelopeBytes (sample.payloadBytes [34, 2, 99, 104] []))]⟩,
          none, none⟩) ∧
    protoutil.IsConfigBlock sample.codec
        (some ⟨some ⟨7, some [1], some [2]⟩,
          some ⟨[some (sample.envelopeBytes (sample.payloadBytes [34, 2, 99, 104] [])),
                 some (sample.envelopeBytes (sample.payloadBytes [8, 1, 34, 2, 99, 104] []))]⟩,
          some ⟨[some [3]]⟩, some ⟨[some [4]]⟩⟩) = .ok false :=
  ⟨IsConfigBlock_first_only sample.codec _ _ _ _ _ _ _ _ rfl rfl rfl rfl rfl, rfl⟩

/-! ## The channel header of an envelope -/

/-- C8, amended. `ChannelHeader` has five failures.  A nil envelope fails with
"Invalid envelope payload. can't be nil", whatever the codec; a payload that does
not decode fails with the payload decode error; a payload that decodes with no
header fails with "header not set"; a header with nil channel header bytes fails
with "channel header not set"; channel header bytes that are set but do not decode
fail with the decode error annotated "error unmarshaling channel header".  In every
other case the decoded channel header is returned without error.  The messages of
the nil-envelope, header-not-set, channel-header-not-set and malformed channel
header errors are pairwise different. -/
theorem ChannelHeader_failures (c : Codec) :
    protoutil.ChannelHeader c none =
      (none, some (GoError.new "Invalid envelope payload. can\x27t be nil")) ∧
    (∀ (env : cb.Envelope) (e : MalformedMessage),
      c.UnmarshalPayload (bytesOf env.Payload) = .error e →
      protoutil.ChannelHeader c (some env) = (none, some (GoError.malformed e))) ∧
    (∀ (env : cb.Envelope) (p : cb.Payload),
      c.UnmarshalPayload (bytesOf env.Payload) = .ok p → p.Header = none →
      protoutil.ChannelHeader c (some env) = (none, some (GoError.new "header not set"))) ∧
    (∀ (env : cb.Envelope) (p : cb.Payload) (h : cb.Header),
      c.UnmarshalPayload (bytesOf env.Payload) = .ok p → p.Header = some h →
      h.ChannelHeader = none →
      protoutil.ChannelHeader c (some env) =
        (none, some (GoError.new "channel header not set"))) ∧
    (∀ (env : cb.Envelope) (p : cb.Payload) (h : cb.Header) (e : MalformedMessage),
      c.UnmarshalPayload (bytesOf env.Payload) = .ok p → p.Header = some h →
      h.ChannelHeader ≠ none →
      c.UnmarshalChannelHeader (bytesOf h.ChannelHeader) = .error e →
      protoutil.ChannelHeader c (some env) =
        (none, some (GoError.withMessage (GoError.malformed e)
          "error unmarshaling channel header"))) ∧
    (∀ (env : cb.Envelope) (p : cb.Payload) (h : cb.Header) (chdr : cb.ChannelHeader),
      c.UnmarshalPayload (bytesOf env.Payload) = .ok p → p.Header = some h →
      h.ChannelHeader ≠ none →
      c.UnmarshalChannelHeader (bytesOf h.ChannelHeader) = .ok chdr →
      protoutil.ChannelHeader c (some env) = (some chdr, none)) ∧
    (∀ e : MalformedMessage,
      [(GoError.new "Invalid envelope payload. can\x27t be nil").Error,
        (GoError.new "header not set").Error,
        (GoError.new "channel header not set").Error,
        (GoError.withMessage (GoError.malformed e)
          "error unmarshaling channel header").Error].Nodup) := by
  refine ⟨rfl, ?_, ?_, ?_, ?_, ?_, ?_⟩
  · intro env e hp
    simp only [protoutil.ChannelHeader, hp]
  · intro env p hp hh
    simp only [protoutil.ChannelHeader, hp, hh, errors.New]
  · intro env p h hp hh hn
    simp only [protoutil.ChannelHeader, hp, hh, hn, errors.New]
  · intro env p h e hp hh hn hc
    cases hb : h.ChannelHeader with
    | none => exact absurd hb hn
    | some bs =>
      simp only [protoutil.ChannelHeader, hp, hh]
      rw [hb] at hc
      simp only [hb, hc, errors.WithMessage]
  · intro env p h chdr hp hh hn hc
    cases hb : h.ChannelHeader with
    | none => exact absurd hb hn
    | some bs =>
      simp only [protoutil.ChannelHeader, hp, hh]
      rw [hb] at hc
      simp only [hb, hc]
  · intro e
    have h4 : ∀ s : String, s.data.head? ≠ some (Char.ofNat 101) →
        (GoError.withMessage (GoError.malformed e)
          "error unmarshaling channel header").Error ≠ s := by
      intro s hs heq
      apply hs
      rw [← heq]
      simp [GoError.Error, String.data_append]
    simp only [List.nodup_cons, List.mem_cons, List.mem_singleton, List.not_mem_nil,
      List.nodup_nil, not_or, or_false, and_true, not_false_eq_true]
    refine ⟨⟨by decide, by decide, ?_⟩, ⟨by decide, ?_⟩, ?_⟩
    · exact fun h => h4 _ (by decide) h.symm
    · exact fun h => h4 _ (by decide) h.symm
    · exact fun h => h4 _ (by decide) h.symm

/-- The cases of C8 on the sample codec, as in the test: a channel header with
channel id "foo" is returned; a header without channel header bytes, a payload
without header, and the bytes "bad payload" each fail with their own error. -/
theorem ChannelHeader_failures_witness :
    protoutil.ChannelHeader sample.codec
        (some ⟨some (sample.payloadBytes [34, 3, 102, 111, 111] []), none⟩) =
      (some { sample.emptyChannelHeader with ChannelId := "foo" }, none) ∧
    protoutil.ChannelHeader sample.codec (some ⟨some [10, 0], none⟩) =
      (none, some (GoError.new "channel header not set")) ∧
    protoutil.ChannelHeader sample.codec (some ⟨none, none⟩) =
      (none, some (GoError.new "header not set")) ∧
    protoutil.ChannelHeader sample.codec (some ⟨some sample.badBytes, none⟩) =
      (none, some (GoError.malformed sample.malformed)) ∧
    protoutil.ChannelHeader sample.codec
        (some ⟨some (sample.payloadBytes sample.badBytes []), none⟩) =
      (none, some (GoError.withMessage (GoError.malformed sample.malformed)
        "error unmarshaling channel header")) :=
  ⟨(ChannelHeader_failures sample.codec).2.2.2.2.2.1
      ⟨some (sample.payloadBytes [34, 3, 102, 111, 111] []), none⟩
      ⟨some ⟨some [34, 3, 102, 111, 111], none⟩, none⟩ ⟨some [34, 3, 102, 111, 111], none⟩
      { sample.emptyChannelHeader with ChannelId := "foo" } rfl rfl (by decide) rfl,
   (ChannelHeader_failures sample.codec).2.2.2.1 ⟨some [10, 0], none⟩
      ⟨some ⟨none, none⟩, none⟩ ⟨none, none⟩ rfl rfl rfl,
   (ChannelHeader_failures sample.codec).2.2.1 ⟨none, none⟩ ⟨none, none⟩ rfl rfl,
   (ChannelHeader_failures sample.codec).2.1 ⟨some sample.badBytes, none⟩ sample.malformed rfl,
   (ChannelHeader_failures sample.codec).2.2.2.2.1
      ⟨some (sample.payloadBytes sample.badBytes []), none⟩
      ⟨some ⟨some sample.badBytes, none⟩, none⟩ ⟨some sample.badBytes, none⟩
      sample.malformed rfl rfl (by decide) rfl⟩

/-- C8 as stated fails: the envelope with payload bytes "bad payload" is not nil
and its payload does not decode, so it is none of the four listed failures, yet
`ChannelHeader` returns no channel header and the payload decode error. -/
theorem ChannelHeader_fifth_failure :
    (∀ p, sample.codec.UnmarshalPayload (bytesOf (some sample.badBytes)) ≠ .ok p) ∧
    protoutil.ChannelHeader sample.codec (some ⟨some sample.badBytes, none⟩) =
      (none, some (GoError.malformed sample.malformed)) ∧
    ¬ ∃ chdr, protoutil.ChannelHeader sample.codec (some ⟨some sample.badBytes, none⟩) =
      (some chdr, none) := by
  refine ⟨?_, rfl, ?_⟩
  · intro p h
    have h2 : sample.codec.UnmarshalPayload (bytesOf (some sample.badBytes)) =
        .error sample.malformed := rfl
    rw [h2] at h
    cases h
  · rintro ⟨chdr, h⟩
    have h2 : protoutil.ChannelHeader sample.codec (some ⟨some sample.badBytes, none⟩) =
        (none, some (GoError.malformed sample.malformed)) := rfl
    rw [h2] at h
    cases h

/-- What `UnmarshalEnvelopeOfType` returns in terms of steps 1 to 3: the error of
the failing step, or steps 4 and 5 on the decoded channel header. -/
theorem UnmarshalEnvelopeOfType_headerSteps {M : Type} (c : Codec)
    (unmarshal : ProtoUnmarshal M) (env : cb.Envelope) (headerType : cb.HeaderType)
    (message : M) :
    (∀ e, spec.headerSteps c env = .error e →
      protoutil.UnmarshalEnvelopeOfType c unmarshal (some env) headerType message =
        .ok ⟨none, some e, message⟩) ∧
    (∀ chdr, spec.headerSteps c env = .ok chdr → chdr.Type_ ≠ headerType →
      protoutil.UnmarshalEnvelopeOfType c unmarshal (some env) headerType message =
        .ok ⟨none, some (protoutil.invalidTypeError chdr.Type_ headerType), message⟩) ∧
    (∀ chdr, spec.headerSteps c env = .ok chdr → chdr.Type_ = headerType →
      ∃ err msg, protoutil.UnmarshalEnvelopeOfType c unmarshal (some env) headerType message =
        .ok ⟨some chdr, err, msg⟩) := by
  simp only [spec.headerSteps, protoutil.UnmarshalEnvelopeOfType]
  cases c.UnmarshalPayload (bytesOf env.Payload) with
  | error e1 => simp
  | ok p =>
    simp only
    cases p.Header with
    | none => simp [errors.New]
    | some h =>
      simp only
      cases c.UnmarshalChannelHeader (bytesOf h.ChannelHeader) with
      | error e2 => simp
      | ok ch =>
        simp only [Except.ok.injEq, false_implies, implies_true, true_and, reduceCtorEq]
        constructor
        · intro chdr h1 h2
          subst h1
          rw [if_pos h2]
        · intro chdr h1 h2
          subst h1
          rw [if_neg (not_not.mpr h2)]
          exact ⟨_, _, rfl⟩

/-- C9, amended. For every non-nil envelope, `ChannelHeader` succeeds exactly when
steps 1 to 3 (payload decoding, the header-presence check, channel header decoding)
pass and the channel header bytes of the header are not nil, and it then returns
the channel header of step 3; `UnmarshalEnvelopeOfType` gets past these steps,
carrying the same channel header, exactly when steps 1 to 3 pass.  In particular,
whenever `UnmarshalEnvelopeOfType` succeeds for some expected type on an envelope
whose header carries non-nil channel header bytes, `ChannelHeader` succeeds on that
envelope and returns the same channel header. -/
theorem ChannelHeader_same_steps {M : Type} (c : Codec) (unmarshal : ProtoUnmarshal M)
    (env : cb.Envelope) (message : M) :
    (∀ chdr, protoutil.ChannelHeader c (some env) = (some chdr, none) ↔
      spec.headerSteps c env = .ok chdr ∧
      ∃ p h, c.UnmarshalPayload (bytesOf env.Payload) = .ok p ∧ p.Header = some h ∧
        h.ChannelHeader ≠ none) ∧
    (∀ chdr, spec.headerSteps c env = .ok chdr ↔
      ∃ err msg, protoutil.UnmarshalEnvelopeOfType c unmarshal (some env) chdr.Type_ message =
        .ok ⟨some chdr, err, msg⟩) ∧
    (∀ (headerType : cb.HeaderType) (r : protoutil.EnvelopeOfType M),
      protoutil.UnmarshalEnvelopeOfType c unmarshal (some env) headerType message = .ok r →
      r.err = none →
      (∃ p h, c.UnmarshalPayload (bytesOf env.Payload) = .ok p ∧ p.Header = some h ∧
        h.ChannelHeader ≠ none) →
      r.chdr ≠ none ∧ protoutil.ChannelHeader c (some env) = (r.chdr, none)) := by
  refine ⟨?_, ?_, ?_⟩
  · intro chdr
    simp only [protoutil.ChannelHeader, spec.headerSteps]
    cases c.UnmarshalPayload (bytesOf env.Payload) with
    | error e1 => simp
    | ok p =>
      simp only
      cases hh : p.Header with
      | none => simp [errors.New]
      | some h =>
        simp only
        cases hb : h.ChannelHeader with
        | none => simp [errors.New, hh, hb]
        | some bs =>
          simp only
          cases c.UnmarshalChannelHeader (bytesOf (some bs)) with
          | error e2 => simp [errors.WithMessage]
          | ok ch => simp [hh, hb]
  · intro chdr
    have hs := UnmarshalEnvelopeOfType_headerSteps c unmarshal env chdr.Type_ message
    constructor
    · intro h
      exact hs.2.2 chdr h rfl
    · rintro ⟨err, msg, h⟩
      cases hk : spec.headerSteps c env with
      | error e =>
        rw [hs.1 e hk] at h
        cases h
      | ok ch =>
        by_cases ht : ch.Type_ = chdr.Type_
        · obtain ⟨err1, msg1, h1⟩ := hs.2.2 ch hk ht
          rw [h1] at h
          cases h
          rfl
        · rw [hs.2.1 ch hk ht] at h
          cases h
  · intro headerType r hr herr hset
    have hs := UnmarshalEnvelopeOfType_headerSteps c unmarshal env headerType message
    obtain ⟨p, h, hp, hh, hn⟩ := hset
    cases hk : spec.headerSteps c env with
    | error e =>
      rw [hs.1 e hk] at hr
      cases hr
      cases herr
    | ok ch =>
      by_cases ht : ch.Type_ = headerType
      · obtain ⟨err1, msg1, h1⟩ := hs.2.2 ch hk ht
        rw [h1] at hr
        cases hr
        refine ⟨by simp, ?_⟩
        simp only [spec.headerSteps, hp, hh] at hk
        simp only [protoutil.ChannelHeader, hp, hh]
        cases hb : h.ChannelHeader with
        | none => exact absurd hb hn
        | some bs =>
          rw [hb] at hk
          simp only
          cases hc : c.UnmarshalChannelHeader (bytesOf (some bs)) with
          | error e2 =>
            rw [hc] at hk
            cases hk
          | ok ch2 =>
            rw [hc] at hk
            cases hk
            rfl
      · rw [hs.2.1 ch hk ht] at hr
        cases hr
        cases herr

/-- The test envelope of `ChannelHeader` (channel id "foo") under C9: with the
channel header bytes set, `UnmarshalEnvelopeOfType` for type MESSAGE and
`ChannelHeader` return the same channel header. -/
theorem ChannelHeader_same_steps_witness :
    (some { sample.emptyChannelHeader with ChannelId := "foo" } : Option cb.ChannelHeader)
        ≠ none ∧
    protoutil.ChannelHeader sample.codec
        (some ⟨some (sample.payloadBytes [34, 3, 102, 111, 111] []), none⟩) =
      (some { sample.emptyChannelHeader with ChannelId := "foo" }, none) :=
  (ChannelHeader_same_steps sample.codec sample.unmarshalBody
    ⟨some (sample.payloadBytes [34, 3, 102, 111, 111] []), none⟩ ⟨none, none⟩).2.2
    cb.HeaderType_MESSAGE
    ⟨some { sample.emptyChannelHeader with ChannelId := "foo" }, none, ⟨none, none⟩⟩
    rfl rfl
    ⟨⟨some ⟨some [34, 3, 102, 111, 111], none⟩, none⟩, ⟨some [34, 3, 102, 111, 111], none⟩,
      rfl, rfl, by decide⟩

/-- C9 as stated fails: on the envelope whose payload has a header without channel
header bytes, `UnmarshalEnvelopeOfType` requested as MESSAGE passes steps 1 to 3
(the nil channel header decodes as the empty header) and succeeds, while
`ChannelHeader` fails with "channel header not set". -/
theorem ChannelHeader_not_same_steps :
    spec.headerSteps sample.codec ⟨some [10, 0], none⟩ = .ok sample.emptyChannelHeader ∧
    protoutil.UnmarshalEnvelopeOfType sample.codec sample.unmarshalBody
        (some ⟨some [10, 0], none⟩) cb.HeaderType_MESSAGE ⟨none, none⟩ =
      .ok ⟨some sample.emptyChannelHeader, none, ⟨none, none⟩⟩ ∧
    protoutil.ChannelHeader sample.codec (some ⟨some [10, 0], none⟩) =
      (none, some (GoError.new "channel header not set")) :=
  ⟨rfl, rfl, rfl⟩

/-! ## Envelope extraction -/

/-- C10. For every block and every integer index, `ExtractEnvelope` returns
without aborting (so no element is read out of range), and it returns an error and
no envelope when the block's data is nil, when the index is negative, or when the
index is greater than or equal to the number of envelopes; `ExtractEnvelopeOrPanic`
aborts with the error exactly when `ExtractEnvelope` returns one, and otherwise
returns the same envelope. -/
theorem ExtractEnvelope_rejects_bad_positions (c : Codec) (block : cb.Block) (index : Int) :
    (block.Data = none →
      protoutil.ExtractEnvelope c (some block) index =
        .ok (none, some (GoError.new "block data is nil"))) ∧
    (∀ data, block.Data = some data → (index < 0 ∨ index ≥ (data.Data.length : Int)) →
      protoutil.ExtractEnvelope c (some block) index =
        .ok (none, some (GoError.new "envelope index out of bounds"))) ∧
    (∃ r, protoutil.ExtractEnvelope c (some block) index = .ok r ∧
      (∀ e, r.2 = some e →
        protoutil.ExtractEnvelopeOrPanic c (some block) index = .error (Panic.error e)) ∧
      (r.2 = none →
        protoutil.ExtractEnvelopeOrPanic c (some block) index = .ok r.1)) := by
  refine ⟨?_, ?_, ?_⟩
  · intro h
    simp only [protoutil.ExtractEnvelope, h, errors.New]
  · intro data h hi
    simp only [protoutil.ExtractEnvelope, h, errors.New]
    rw [if_pos hi]
  · have key : ∃ r, protoutil.ExtractEnvelope c (some block) index = .ok r := by
      simp only [protoutil.ExtractEnvelope]
      cases block.Data with
      | none => exact ⟨_, rfl⟩
      | some data =>
        simp only
        by_cases hi : index < 0 ∨ index ≥ (data.Data.length : Int)
        · rw [if_pos hi]
          exact ⟨_, rfl⟩
        · rw [if_neg hi]
          have hlt : index.toNat < data.Data.length := by omega
          rw [List.getElem?_eq_getElem hlt]
          simp only
          cases c.GetEnvelopeFromBlock (bytesOf data.Data[index.toNat]) with
          | error e => exact ⟨_, rfl⟩
          | ok envelope => exact ⟨_, rfl⟩
    obtain ⟨r, hr⟩ := key
    refine ⟨r, hr, ?_, ?_⟩
    · intro e he
      obtain ⟨r1, r2⟩ := r
      simp only at he
      subst he
      simp only [protoutil.ExtractEnvelopeOrPanic, hr]
    · intro he
      obtain ⟨r1, r2⟩ := r
      simp only at he
      subst he
      simp only [protoutil.ExtractEnvelopeOrPanic, hr]

/-- The test cases of C10: a block without data at index 0, and the test block
(one envelope) at index 1 and at index -1. -/
theorem ExtractEnvelope_rejects_bad_positions_witness :
    protoutil.ExtractEnvelope sample.codec (some ⟨none, none, none, none⟩) 0 =
      .ok (none, some (GoError.new "block data is nil")) ∧
    protoutil.ExtractEnvelope sample.codec
        (some ⟨none,
          some ⟨[some (sample.envelopeBytes (sample.payloadBytes [34, 2, 99, 104] []))]⟩,
          none, none⟩) 1 =
      .ok (none, some (GoError.new "envelope index out of bounds")) ∧
    protoutil.ExtractEnvelope sample.codec
        (some ⟨none,
          some ⟨[some (sample.envelopeBytes (sample.payloadBytes [34, 2, 99, 104] []))]⟩,
          none, none⟩) (-1) =
      .ok (none, some (GoError.new "envelope index out of bounds")) :=
  ⟨(ExtractEnvelope_rejects_bad_positions sample.codec ⟨none, none, none, none⟩ 0).1 rfl,
   (ExtractEnvelope_rejects_bad_positions sample.codec
      ⟨none, some ⟨[some (sample.envelopeBytes (sample.payloadBytes [34, 2, 99, 104] []))]⟩,
        none, none⟩ 1).2.1 _ rfl (Or.inr (by decide)),
   (ExtractEnvelope_rejects_bad_positions sample.codec
      ⟨none, some ⟨[some (sample.envelopeBytes (sample.payloadBytes [34, 2, 99, 104] []))]⟩,
        none, none⟩ (-1)).2.1 _ rfl (Or.inl (by decide))⟩

/-! ## The sample codec decodes what it encodes -/

/-- Enough fuel: the result of `sample.parse` does not depend on the bound once it
is at least the length of the input. -/
theorem sample_parse_fuel (fuel : Nat) :
    ∀ (bs : List Nat) (fuel2 : Nat), bs.length ≤ fuel → bs.length ≤ fuel2 →
      sample.parse fuel bs = sample.parse fuel2 bs := by
  induction fuel with
  | zero =>
    intro bs fuel2 h1 _
    cases bs with
    | nil => cases fuel2 <;> rfl
    | cons a t => simp at h1
  | succ f ih =>
    intro bs fuel2 h1 h2
    cases bs with
    | nil => cases fuel2 <;> rfl
    | cons key rest =>
      cases fuel2 with
      | zero => simp at h2
      | succ f2 =>
        simp only [List.length_cons] at h1 h2
        cases rest with
        | nil => simp [sample.parse]
        | cons n more =>
          simp only [List.length_cons] at h1 h2
          simp only [sample.parse]
          have e1 : sample.parse f more = sample.parse f2 more :=
            ih more f2 (by omega) (by omega)
          have e2 : sample.parse f (more.drop n) = sample.parse f2 (more.drop n) :=
            ih (more.drop n) f2 (by simp only [List.length_drop]; omega)
              (by simp only [List.length_drop]; omega)
          rw [e1, e2]

/-- The fields of an encoded bytes field followed by more input. -/
theorem sample_fields_encBytes (num : Nat) (content rest : List Nat) :
    sample.fields (sample.encBytes num (some content) ++ rest) =
      (sample.fields rest).map (fun fs => sample.Field.bytes num content :: fs) := by
  have hk : (8 * num + 2) % 8 = 2 := by omega
  have hd : (8 * num + 2) / 8 = num := by omega
  have hlen : (sample.encBytes num (some content) ++ rest).length =
      (content.length + rest.length + 1) + 1 := by
    simp only [sample.encBytes, List.cons_append, List.length_cons, List.length_append]
  have hshape : sample.encBytes num (some content) ++ rest =
      (8 * num + 2) :: content.length :: (content ++ rest) := rfl
  rw [sample.fields, hlen, hshape, sample.parse, hk, hd]
  have hle : content.length ≤ (content ++ rest).length := by simp
  simp only [if_pos hle, List.drop_left, List.take_left]
  rw [sample_parse_fuel (content.length + rest.length + 1) rest rest.length (by omega)
    (Nat.le_refl _)]
  simp [sample.fields]

/-- The fields of an encoded number field followed by more input. -/
theorem sample_fields_encVarint (num v : Nat) (rest : List Nat) (hv : v ≠ 0) :
    sample.fields (sample.encVarint num v ++ rest) =
      (sample.fields rest).map (fun fs => sample.Field.varint num v :: fs) := by
  have hk : (8 * num) % 8 = 0 := by omega
  have hd : (8 * num) / 8 = num := by omega
  have hshape : sample.encVarint num v ++ rest = (8 * num) :: v :: rest := by
    simp [sample.encVarint, hv]
  have hlen : ((8 * num) :: v :: rest).length = (rest.length + 1) + 1 := rfl
  rw [sample.fields, hshape, hlen, sample.parse, hk, hd]
  simp only [if_true]
  rw [sample_parse_fuel (rest.length + 1) rest rest.length (by omega) (Nat.le_refl _)]
  simp [sample.fields]

/-- The empty input has no field. -/
theorem sample_fields_nil : sample.fields [] = some [] := rfl

/-- The fields of one encoded bytes field. -/
theorem sample_fields_encBytes_one (num : Nat) (content : List Nat) :
    sample.fields (sample.encBytes num (some content)) =
      some [sample.Field.bytes num content] := by
  have h := sample_fields_encBytes num content []
  simpa [sample_fields_nil] using h

/-- The sample decoder of envelopes inverts the sample encoder. -/
theorem sample_envelope_law (e : cb.Envelope) :
    sample.UnmarshalEnvelope (sample.encEnvelope e) = .ok e := by
  obtain ⟨p, s⟩ := e
  cases p with
  | none =>
    cases s with
    | none => rfl
    | some s =>
      have h := sample_fields_encBytes_one 2 s
      simp only [sample.UnmarshalEnvelope, sample.encEnvelope]
      rw [show sample.encBytes 1 none ++ sample.encBytes 2 (some s) =
        sample.encBytes 2 (some s) from rfl, h]
      rfl
  | some p =>
    cases s with
    | none =>
      have h := sample_fields_encBytes_one 1 p
      simp only [sample.UnmarshalEnvelope, sample.encEnvelope]
      rw [show sample.encBytes 1 (some p) ++ sample.encBytes 2 none =
        sample.encBytes 1 (some p) from List.append_nil _, h]
      rfl
    | some s =>
      have h := sample_fields_encBytes 1 p (sample.encBytes 2 (some s))
      rw [sample_fields_encBytes_one 2 s] at h
      simp only [sample.UnmarshalEnvelope, sample.encEnvelope, h]
      rfl

/-- The sample decoder of config update envelopes inverts the sample encoder. -/
theorem sample_configUpdateEnvelope_law (m m0 : cb.ConfigUpdateEnvelope) :
    sample.unmarshalConfigUpdateEnvelope (sample.encConfigUpdateEnvelope m) m0 = (m, none) := by
  obtain ⟨u⟩ := m
  cases u with
  | none => rfl
  | some bs =>
    simp only [sample.unmarshalConfigUpdateEnvelope, sample.encConfigUpdateEnvelope,
      sample_fields_encBytes_one]
    rfl

/-- The sample decoder of metadata records inverts the sample encoder. -/
theorem sample_metadata_law (m m0 : cb.Metadata) :
    sample.unmarshalMetadata (sample.encMetadata m) m0 = (m, none) := by
  obtain ⟨v⟩ := m
  cases v with
  | none => rfl
  | some bs =>
    simp only [sample.unmarshalMetadata, sample.encMetadata, sample_fields_encBytes_one]
    rfl

/-- The fields of an encoded last config record. -/
theorem sample_fields_encLastConfig (m : cb.LastConfig) :
    ∃ fs, sample.fields (sample.encLastConfig m) = some fs ∧ sample.lastConfigOf fs ⟨0⟩ = m := by
  obtain ⟨i⟩ := m
  by_cases hi : i = 0
  · subst hi
    exact ⟨[], rfl, rfl⟩
  · refine ⟨[sample.Field.varint 1 i], ?_, rfl⟩
    have h := sample_fields_encVarint 1 i [] hi
    simpa [sample_fields_nil, sample.encLastConfig] using h

/-- The sample decoder of last config records inverts the sample encoder. -/
theorem sample_lastConfig_law (m m0 : cb.LastConfig) :
    sample.unmarshalLastConfig (sample.encLastConfig m) m0 = (m, none) := by
  obtain ⟨fs, h1, h2⟩ := sample_fields_encLastConfig m
  simp only [sample.unmarshalLastConfig, h1, h2]

/-- The sample decoder of orderer block metadata records inverts the sample encoder. -/
theorem sample_ordererBlockMetadata_law (m m0 : cb.OrdererBlockMetadata) :
    sample.unmarshalOrdererBlockMetadata (sample.encOrdererBlockMetadata m) m0 = (m, none) := by
  obtain ⟨l⟩ := m
  cases l with
  | none => rfl
  | some lc =>
    obtain ⟨fs, h1, h2⟩ := sample_fields_encLastConfig lc
    simp only [sample.unmarshalOrdererBlockMetadata, sample.encOrdererBlockMetadata,
      Option.map_some', sample_fields_encBytes_one, Option.some_bind,
      sample.ordererBlockMetadataOf, h1, h2]

/-! ## Envelope extraction and config update recovery under the round-trip law -/

/-- C11. Assume the round-trip law of the codec for envelopes: decoding the encoding
of an envelope yields that envelope.  Then for every envelope `e`, every block and
every index `i` with `0 ≤ i < len(block.data)` such that `block.data[i]` is the
encoding of `e`, `ExtractEnvelope(block, i)` returns `e` and no error. -/
theorem ExtractEnvelope_undoes_encoding {G : Type} (c : Codec) (marshal : proto.Marshaler G)
    (e : cb.Envelope) (block : cb.Block) (data : cb.BlockData) (i : Int)
    (hlaw : ∀ m : cb.Envelope, (marshal (.envelope m)).2 = none →
      c.GetEnvelopeFromBlock (bytesOf (marshal (.envelope m)).1) = .ok m)
    (hd : block.Data = some data) (h0 : 0 ≤ i) (h1 : i < (data.Data.length : Int))
    (henc : (marshal (.envelope e)).2 = none)
    (hat : data.Data[i.toNat]? = some (marshal (.envelope e)).1) :
    protoutil.ExtractEnvelope c (some block) i = .ok (some e, none) := by
  have hi : ¬ (i < 0 ∨ i ≥ (data.Data.length : Int)) := by omega
  simp only [protoutil.ExtractEnvelope, hd, if_neg hi, hat, hlaw e henc]

/-- The test case of C11 on the sample codec: the test block holds the encoding of
the test envelope (type MESSAGE, channel "test", data "test") at index 0. -/
theorem ExtractEnvelope_undoes_encoding_witness :
    protoutil.ExtractEnvelope sample.codec
        (some ⟨none,
          some ⟨[(sample.Marshal (.envelope
            ⟨some (sample.encPayload
              ⟨some ⟨some (sample.encChannelHeader
                  { sample.emptyChannelHeader with Version := 1, ChannelId := "test" }),
                some (sample.encSignatureHeader ⟨some [99], some [110]⟩)⟩,
               some [116, 101, 115, 116]⟩), none⟩)).1]⟩,
          none, none⟩) 0 =
      .ok (some ⟨some (sample.encPayload
              ⟨some ⟨some (sample.encChannelHeader
                  { sample.emptyChannelHeader with Version := 1, ChannelId := "test" }),
                some (sample.encSignatureHeader ⟨some [99], some [110]⟩)⟩,
               some [116, 101, 115, 116]⟩), none⟩, none) :=
  ExtractEnvelope_undoes_encoding sample.codec sample.Marshal _ _ _ 0
    (fun m _ => sample_envelope_law m) rfl (by decide) (by decide) rfl rfl

/-- C12. Assume the round-trip law of the codec for config update envelopes.  For an
envelope whose payload decodes with a header whose channel header decodes:
if the type is CONFIG_UPDATE and the payload data is the encoding of a config
update envelope `cue`, `EnvelopeToConfigUpdate` returns `cue` and no error; if the
type is CONFIG_UPDATE and the payload data does not decode as a config update
envelope, or if the type is not CONFIG_UPDATE, it returns an error and a nil
result. -/
theorem EnvelopeToConfigUpdate_recovers {G : Type} (c : Codec) (marshal : proto.Marshaler G)
    (unmarshal : ProtoUnmarshal cb.ConfigUpdateEnvelope) (envelope : cb.Envelope)
    (payload : cb.Payload) (header : cb.Header) (chdr : cb.ChannelHeader)
    (hlaw : ∀ m m0 : cb.ConfigUpdateEnvelope, (marshal (.configUpdateEnvelope m)).2 = none →
      unmarshal (bytesOf (marshal (.configUpdateEnvelope m)).1) m0 = (m, none))
    (hp : c.UnmarshalPayload (bytesOf envelope.Payload) = .ok payload)
    (hh : payload.Header = some header)
    (hc : c.UnmarshalChannelHeader (bytesOf header.ChannelHeader) = .ok chdr) :
    (∀ cue : cb.ConfigUpdateEnvelope, chdr.Type_ = cb.HeaderType_CONFIG_UPDATE →
      (marshal (.configUpdateEnvelope cue)).2 = none →
      bytesOf payload.Data = bytesOf (marshal (.configUpdateEnvelope cue)).1 →
      protoutil.EnvelopeToConfigUpdate c unmarshal (some envelope) = .ok (some cue, none)) ∧
    (∀ e : MalformedMessage, chdr.Type_ = cb.HeaderType_CONFIG_UPDATE →
      (unmarshal (bytesOf payload.Data) ⟨none⟩).2 = some e →
      protoutil.EnvelopeToConfigUpdate c unmarshal (some envelope) =
        .ok (none, some (GoError.wrap (GoError.malformed e)
          "error unmarshaling message for type CONFIG_UPDATE"))) ∧
    (chdr.Type_ ≠ cb.HeaderType_CONFIG_UPDATE →
      protoutil.EnvelopeToConfigUpdate c unmarshal (some envelope) =
        .ok (none, some (GoError.new ("invalid type " ++ cb.HeaderTypeString chdr.Type_ ++
          ", expected CONFIG_UPDATE")))) := by
  refine ⟨?_, ?_, ?_⟩
  · intro cue ht henc hdata
    simp only [protoutil.EnvelopeToConfigUpdate, protoutil.UnmarshalEnvelopeOfType, hp, hh, hc]
    rw [if_neg (not_not.mpr ht), hdata, hlaw cue ⟨none⟩ henc]
    rfl
  · intro e ht hbad
    simp only [protoutil.EnvelopeToConfigUpdate, protoutil.UnmarshalEnvelopeOfType, hp, hh, hc]
    rw [if_neg (not_not.mpr ht), hbad]
    rfl
  · intro ht
    have hname : cb.HeaderTypeString cb.HeaderType_CONFIG_UPDATE = "CONFIG_UPDATE" := by decide
    simp only [protoutil.EnvelopeToConfigUpdate, protoutil.UnmarshalEnvelopeOfType, hp, hh, hc]
    rw [if_pos ht]
    have hcat : ∀ t : String, t ++ ", expected " ++ "CONFIG_UPDATE" =
        t ++ ", expected CONFIG_UPDATE" := by
      intro t
      rw [String.append_assoc]
      rfl
    simp only [protoutil.invalidTypeError, hname, hcat]

/-- The test cases of C12 on the sample codec: a CONFIG_UPDATE envelope on channel
"test-chain" carrying the encoding of a config update envelope, and the same
envelope carrying the bytes "bad payload". -/
theorem EnvelopeToConfigUpdate_recovers_witness :
    protoutil.EnvelopeToConfigUpdate sample.codec sample.unmarshalConfigUpdateEnvelope
        (some (sample.configUpdateEnvelope
          (some (sample.encConfigUpdateEnvelope ⟨some [1, 2, 3]⟩)))) =
      .ok (some ⟨some [1, 2, 3]⟩, none) ∧
    protoutil.EnvelopeToConfigUpdate sample.codec sample.unmarshalConfigUpdateEnvelope
        (some (sample.configUpdateEnvelope (some sample.badBytes))) =
      .ok (none, some (GoError.wrap (GoError.malformed sample.malformed)
        "error unmarshaling message for type CONFIG_UPDATE")) :=
  ⟨(EnvelopeToConfigUpdate_recovers sample.codec sample.Marshal
      sample.unmarshalConfigUpdateEnvelope
      (sample.configUpdateEnvelope (some (sample.encConfigUpdateEnvelope ⟨some [1, 2, 3]⟩)))
      (sample.configUpdatePayload (some (sample.encConfigUpdateEnvelope ⟨some [1, 2, 3]⟩)))
      ⟨some (sample.encChannelHeader sample.configUpdateHeader), none⟩
      sample.configUpdateHeader
      (fun m m0 _ => sample_configUpdateEnvelope_law m m0) rfl rfl rfl).1
      ⟨some [1, 2, 3]⟩ rfl rfl rfl,
   (EnvelopeToConfigUpdate_recovers sample.codec sample.Marshal
      sample.unmarshalConfigUpdateEnvelope
      (sample.configUpdateEnvelope (some sample.badBytes))
      (sample.configUpdatePayload (some sample.badBytes))
      ⟨some (sample.encChannelHeader sample.configUpdateHeader), none⟩
      sample.configUpdateHeader
      (fun m m0 _ => sample_configUpdateEnvelope_law m m0) rfl rfl rfl).2.1
      sample.malformed rfl rfl⟩

/-! ## The nonce generator -/

/-- Writing into a buffer keeps its length. -/
theorem fill_length (buf src : List Nat) : (fill buf src).length = buf.length := by
  simp only [fill, List.length_append, List.length_take, List.length_drop]
  omega

/-- The nonce when the entropy source supplies bytes. -/
theorem CreateNonceOrPanic_supplied (rand : RandReader) (h : (rand.Read 24).2 = none) :
    protoutil.CreateNonceOrPanic rand =
      .ok (some (fill (List.replicate 24 0) (rand.Read 24).1)) := by
  simp [protoutil.CreateNonceOrPanic, protoutil.CreateNonce, protoutil.getRandomNonce, h,
    errors.WithMessage]

/-- C20. Whenever the entropy source supplies bytes (its read of the 24 byte buffer
returns no error), `getRandomNonce`, `CreateNonce` and `CreateNonceOrPanic` return
the same byte string of exactly 24 bytes, and no error; whenever the entropy
source fails, `CreateNonce` returns a non-nil error and no nonce, and
`CreateNonceOrPanic` aborts with that error. -/
theorem CreateNonce_length (rand : RandReader) :
    ((rand.Read 24).2 = none →
      ∃ n : List Nat, n.length = 24 ∧
        protoutil.getRandomNonce rand = (some n, none) ∧
        protoutil.CreateNonce rand = (some n, none) ∧
        protoutil.CreateNonceOrPanic rand = .ok (some n)) ∧
    (∀ e, (rand.Read 24).2 = some e →
      protoutil.CreateNonce rand =
        (none, some (GoError.withMessage (GoError.wrap e "error getting random bytes")
          "error generating random nonce")) ∧
      protoutil.CreateNonceOrPanic rand =
        .error (Panic.error (GoError.withMessage (GoError.wrap e "error getting random bytes")
          "error generating random nonce"))) := by
  constructor
  · intro h
    refine ⟨fill (List.replicate 24 0) (rand.Read 24).1, ?_, ?_, ?_, ?_⟩
    · rw [fill_length]
      simp
    · simp [protoutil.getRandomNonce, h]
    · simp [protoutil.CreateNonce, protoutil.getRandomNonce, h, errors.WithMessage]
    · exact CreateNonceOrPanic_supplied rand h
  · intro e h
    constructor
    · simp [protoutil.CreateNonce, protoutil.getRandomNonce, h, errors.WithMessage, errors.Wrap]
    · simp [protoutil.CreateNonceOrPanic, protoutil.CreateNonce, protoutil.getRandomNonce, h,
        errors.WithMessage, errors.Wrap]

/-- The cases of C20 on the sample entropy sources: one that delivers the bytes 1
to 24, and one that fails. -/
theorem CreateNonce_length_witness :
    (∃ n : List Nat, n.length = 24 ∧
        protoutil.getRandomNonce sample.rand = (some n, none) ∧
        protoutil.CreateNonce sample.rand = (some n, none) ∧
        protoutil.CreateNonceOrPanic sample.rand = .ok (some n)) ∧
    (protoutil.CreateNonce sample.noEntropy =
        (none, some (GoError.withMessage
          (GoError.wrap (GoError.new "entropy unavailable") "error getting random bytes")
          "error generating random nonce")) ∧
      protoutil.CreateNonceOrPanic sample.noEntropy =
        .error (Panic.error (GoError.withMessage
          (GoError.wrap (GoError.new "entropy unavailable") "error getting random bytes")
          "error generating random nonce"))) :=
  ⟨(CreateNonce_length sample.rand).1 rfl,
   (CreateNonce_length sample.noEntropy).2 (GoError.new "entropy unavailable") rfl⟩

/-! ## The genesis block -/

/-- The genesis block, when the nonce is drawn and the encoder does not fail. -/
theorem genesis_Block_eq {G : Type} (x : genesis.Collaborators G) (f : genesis.factory G)
    (channelID : String) (n : GoBytes)
    (hn : protoutil.CreateNonceOrPanic x.rand = .ok n)
    (hm : ∀ m, (x.Marshal m).2 = none) :
    genesis.factory.Block x f channelID = .ok
      { Header := some
          { Number := 0
            PreviousHash := none
            DataHash := x.BlockDataHash (some ⟨[(x.Marshal (.envelope
              ⟨(x.Marshal (.payload
                ⟨some ⟨(x.Marshal (.channelHeader
                    { Type_ := cb.HeaderType_CONFIG, Version := 1,
                      Timestamp := some ⟨x.Now.Unix, 0⟩, ChannelId := channelID,
                      TxId := x.ComputeTxID n none, Epoch := 0 })).1,
                  (x.Marshal (.signatureHeader ⟨none, n⟩)).1⟩,
                 (x.Marshal (.configEnvelope ⟨some ⟨f.channelGroup⟩, none⟩)).1⟩)).1,
               none⟩)).1]⟩) }
        Data := some ⟨[(x.Marshal (.envelope
              ⟨(x.Marshal (.payload
                ⟨some ⟨(x.Marshal (.channelHeader
                    { Type_ := cb.HeaderType_CONFIG, Version := 1,
                      Timestamp := some ⟨x.Now.Unix, 0⟩, ChannelId := channelID,
                      TxId := x.ComputeTxID n none, Epoch := 0 })).1,
                  (x.Marshal (.signatureHeader ⟨none, n⟩)).1⟩,
                 (x.Marshal (.configEnvelope ⟨some ⟨f.channelGroup⟩, none⟩)).1⟩)).1,
               none⟩)).1]⟩
        Metadata := some ⟨[
          (x.Marshal (.metadata ⟨(x.Marshal (.ordererBlockMetadata ⟨some ⟨0⟩⟩)).1⟩)).1,
          (x.Marshal (.metadata ⟨(x.Marshal (.lastConfig ⟨0⟩)).1⟩)).1,
          some [], some [], some []]⟩
        Extension := some ⟨[(x.Marshal (.envelope
              ⟨(x.Marshal (.payload
                ⟨some ⟨(x.Marshal (.channelHeader
                    { Type_ := cb.HeaderType_CONFIG, Version := 1,
                      Timestamp := some ⟨x.Now.Unix, 0⟩, ChannelId := channelID,
                      TxId := x.ComputeTxID n none, Epoch := 0 })).1,
                  (x.Marshal (.signatureHeader ⟨none, n⟩)).1⟩,
                 (x.Marshal (.configEnvelope ⟨some ⟨f.channelGroup⟩, none⟩)).1⟩)).1,
               none⟩)).1]⟩ } := by
  simp only [genesis.factory.Block, hn, protoutil.MarshalOrPanic, hm, protoutil.SetTxID,
    protoutil.MakePayloadHeader, protoutil.MakeChannelHeader, protoutil.MakeSignatureHeader,
    protoutil.NewBlock, setIndex, cb.BlockMetadataIndex_count,
    cb.BlockMetadataIndex_LAST_CONFIG, cb.BlockMetadataIndex_SIGNATURES, genesis.msgVersion,
    genesis.epoch, bind, Except.bind, pure, Except.pure]
  rfl

/-- The sample encoder never fails. -/
theorem sample_Marshal_total (m : proto.Message sample.Group) : (sample.Marshal m).2 = none := by
  cases m <;> rfl

/-- C13. For every channel configuration group and every channel ID, when the
entropy source supplies the nonce and the encoder does not fail, the genesis
factory returns a block whose header data hash is the block data hash
(`BlockDataHash`) of that same block's final data field. -/
theorem genesis_data_hash {G : Type} (x : genesis.Collaborators G) (f : genesis.factory G)
    (channelID : String)
    (hr : (x.rand.Read 24).2 = none)
    (hm : ∀ m, (x.Marshal m).2 = none) :
    ∃ block header, genesis.factory.Block x f channelID = .ok block ∧
      block.Header = some header ∧
      header.DataHash = x.BlockDataHash block.Data := by
  rw [genesis_Block_eq x f channelID _ (CreateNonceOrPanic_supplied x.rand hr) hm]
  exact ⟨_, _, rfl, rfl, rfl⟩

/-- The genesis block of the sample for channel "test-channel" under C13. -/
theorem genesis_data_hash_witness :
    ∃ block header,
      genesis.factory.Block sample.collaborators (genesis.NewFactoryImpl (some [9, 9]))
        "test-channel" = .ok block ∧
      block.Header = some header ∧
      header.DataHash = sample.collaborators.BlockDataHash block.Data :=
  genesis_data_hash sample.collaborators (genesis.NewFactoryImpl (some [9, 9])) "test-channel"
    rfl sample_Marshal_total

/-- The compact sample encoder never fails. -/
theorem sample_MarshalCompact_total (m : proto.Message sample.Group) :
    (sample.MarshalCompact m).2 = none := by
  cases m <;> rfl

/-- The sample decoder of metadata records inverts the compact encoder up to the
difference between a nil and an empty value: the decoded value has the bytes of the
encoded one. -/
theorem sample_metadataCompact_law (m m0 : cb.Metadata) :
    ∃ m1, sample.unmarshalMetadata (sample.encMetadataCompact m) m0 = (m1, none) ∧
      bytesOf m1.Value = bytesOf m.Value := by
  obtain ⟨v⟩ := m
  cases v with
  | none => exact ⟨⟨none⟩, rfl, rfl⟩
  | some bs =>
    cases bs with
    | nil => exact ⟨⟨none⟩, rfl, rfl⟩
    | cons b bs => exact ⟨⟨some (b :: bs)⟩, sample_metadata_law ⟨some (b :: bs)⟩ m0, rfl⟩

/-- C14. For every group and channel ID, when the entropy source supplies the nonce
and the encoder does not fail, the genesis factory returns a block whose LAST_CONFIG
metadata entry is the encoding of a Metadata record whose value is the encoding of
`LastConfig{Index: 0}`, and whose SIGNATURES metadata entry is the encoding of a
Metadata record whose value is the encoding of an orderer block metadata record
whose last config has index 0; this much holds of every encoder.  Moreover, for all
decoders that meet the round-trip law for these three records (for a Metadata
record up to the difference between a nil and an empty value, which an encoder may
write alike), decoding the first entry and then its value gives the last config
index 0, and decoding the second entry and then its value gives an orderer block
metadata record whose last config has index 0. -/
theorem genesis_metadata {G : Type} (x : genesis.Collaborators G) (f : genesis.factory G)
    (channelID : String)
    (hr : (x.rand.Read 24).2 = none)
    (hm : ∀ m, (x.Marshal m).2 = none) :
    ∃ block metadata lastConfig signatures,
      genesis.factory.Block x f channelID = .ok block ∧
      block.Metadata = some metadata ∧
      metadata.Metadata[cb.BlockMetadataIndex_LAST_CONFIG]? = some lastConfig ∧
      metadata.Metadata[cb.BlockMetadataIndex_SIGNATURES]? = some signatures ∧
      lastConfig = (x.Marshal (.metadata ⟨(x.Marshal (.lastConfig ⟨0⟩)).1⟩)).1 ∧
      signatures =
        (x.Marshal (.metadata ⟨(x.Marshal (.ordererBlockMetadata ⟨some ⟨0⟩⟩)).1⟩)).1 ∧
      ∀ (unmarshalMetadata : ProtoUnmarshal cb.Metadata)
        (unmarshalLastConfig : ProtoUnmarshal cb.LastConfig)
        (unmarshalOrdererBlockMetadata : ProtoUnmarshal cb.OrdererBlockMetadata),
        (∀ m m0 : cb.Metadata, (x.Marshal (.metadata m)).2 = none →
          ∃ m1, unmarshalMetadata (bytesOf (x.Marshal (.metadata m)).1) m0 = (m1, none) ∧
            bytesOf m1.Value = bytesOf m.Value) →
        (∀ m m0 : cb.LastConfig, (x.Marshal (.lastConfig m)).2 = none →
          unmarshalLastConfig (bytesOf (x.Marshal (.lastConfig m)).1) m0 = (m, none)) →
        (∀ m m0 : cb.OrdererBlockMetadata, (x.Marshal (.ordererBlockMetadata m)).2 = none →
          unmarshalOrdererBlockMetadata (bytesOf (x.Marshal (.ordererBlockMetadata m)).1) m0 =
            (m, none)) →
        (∀ m0 l0, ∃ decoded,
          unmarshalMetadata (bytesOf lastConfig) m0 = (decoded, none) ∧
          unmarshalLastConfig (bytesOf decoded.Value) l0 = (⟨0⟩, none)) ∧
        (∀ m0 o0, ∃ decoded,
          unmarshalMetadata (bytesOf signatures) m0 = (decoded, none) ∧
          unmarshalOrdererBlockMetadata (bytesOf decoded.Value) o0 = (⟨some ⟨0⟩⟩, none)) := by
  rw [genesis_Block_eq x f channelID _ (CreateNonceOrPanic_supplied x.rand hr) hm]
  refine ⟨_, _, _, _, rfl, rfl, rfl, rfl, rfl, rfl, ?_⟩
  intro unmarshalMetadata unmarshalLastConfig unmarshalOrdererBlockMetadata
    lawMetadata lawLastConfig lawOrderer
  constructor
  · intro m0 l0
    obtain ⟨m1, h1, h2⟩ := lawMetadata ⟨(x.Marshal (.lastConfig ⟨0⟩)).1⟩ m0 (hm _)
    refine ⟨m1, h1, ?_⟩
    rw [h2]
    exact lawLastConfig _ l0 (hm _)
  · intro m0 o0
    obtain ⟨m1, h1, h2⟩ :=
      lawMetadata ⟨(x.Marshal (.ordererBlockMetadata ⟨some ⟨0⟩⟩)).1⟩ m0 (hm _)
    refine ⟨m1, h1, ?_⟩
    rw [h2]
    exact lawOrderer _ o0 (hm _)

/-- The genesis block of the sample for channel "test-channel" under C14, with the
compact encoder, which writes an empty Metadata value as it writes a nil one: the
LAST_CONFIG entry is the empty encoding and the SIGNATURES entry is the four bytes
10, 2, 10, 0, and both decode to the last config index 0. -/
theorem genesis_metadata_witness :
    ∃ block metadata,
      genesis.factory.Block sample.compactCollaborators
        (genesis.NewFactoryImpl (some [9, 9])) "test-channel" = .ok block ∧
      block.Metadata = some metadata ∧
      metadata.Metadata[cb.BlockMetadataIndex_LAST_CONFIG]? = some (some []) ∧
      metadata.Metadata[cb.BlockMetadataIndex_SIGNATURES]? = some (some [10, 2, 10, 0]) ∧
      (∀ m0 l0, ∃ decoded,
        sample.unmarshalMetadata [] m0 = (decoded, none) ∧
        sample.unmarshalLastConfig (bytesOf decoded.Value) l0 = (⟨0⟩, none)) ∧
      (∀ m0 o0, ∃ decoded,
        sample.unmarshalMetadata [10, 2, 10, 0] m0 = (decoded, none) ∧
        sample.unmarshalOrdererBlockMetadata (bytesOf decoded.Value) o0 =
          (⟨some ⟨0⟩⟩, none)) := by
  obtain ⟨block, metadata, lastConfig, signatures, h1, h2, h3, h4, h5, h6, h7⟩ :=
    genesis_metadata sample.compactCollaborators (genesis.NewFactoryImpl (some [9, 9]))
      "test-channel" rfl sample_MarshalCompact_total
  have h8 := h7 sample.unmarshalMetadata sample.unmarshalLastConfig
    sample.unmarshalOrdererBlockMetadata
    (fun m m0 _ => sample_metadataCompact_law m m0)
    (fun m m0 _ => sample_lastConfig_law m m0)
    (fun m m0 _ => sample_ordererBlockMetadata_law m m0)
  subst h5 h6
  exact ⟨block, metadata, h1, h2, h3, h4, h8.1, h8.2⟩

/-- C15. For every group, channel ID and generated nonce `n`, when the encoder does
not fail, the genesis factory returns a block with block number 0 and no previous
hash, whose data contains exactly one element, the encoding of the envelope that the
factory builds: an envelope without signature whose payload is the encoding of the
payload made of the header (the encoding of the channel header with type CONFIG,
version 1, the clock reading as timestamp, the given channel ID, transaction id
`ComputeTxID(n, nil)` and epoch 0, and the encoding of the signature header with no
creator and nonce `n`) and of the encoding of the config envelope around the channel
group of the factory.  The extension data contains exactly one element, equal to that
same element. -/
theorem genesis_block_shape {G : Type} (x : genesis.Collaborators G) (f : genesis.factory G)
    (channelID : String) (n : GoBytes)
    (hn : protoutil.CreateNonceOrPanic x.rand = .ok n)
    (hm : ∀ m, (x.Marshal m).2 = none) :
    ∃ block header marshaledEnvelope,
      genesis.factory.Block x f channelID = .ok block ∧
      block.Header = some header ∧ header.Number = 0 ∧ header.PreviousHash = none ∧
      marshaledEnvelope = (x.Marshal (.envelope
        ⟨(x.Marshal (.payload
          ⟨some ⟨(x.Marshal (.channelHeader
              { Type_ := cb.HeaderType_CONFIG, Version := 1,
                Timestamp := some ⟨x.Now.Unix, 0⟩, ChannelId := channelID,
                TxId := x.ComputeTxID n none, Epoch := 0 })).1,
            (x.Marshal (.signatureHeader ⟨none, n⟩)).1⟩,
           (x.Marshal (.configEnvelope ⟨some ⟨f.channelGroup⟩, none⟩)).1⟩)).1,
         none⟩)).1 ∧
      block.Data = some ⟨[marshaledEnvelope]⟩ ∧
      block.Extension = some ⟨[marshaledEnvelope]⟩ := by
  rw [genesis_Block_eq x f channelID n hn hm]
  exact ⟨_, _, _, rfl, rfl, rfl, rfl, rfl, rfl, rfl⟩

/-- The genesis block of the sample for channel "test-channel" and the group 9, 9
under C15, with the nonce 1, 2, ..., 24 drawn from the sample entropy source. -/
theorem genesis_block_shape_witness :
    ∃ block header marshaledEnvelope,
      genesis.factory.Block sample.collaborators (genesis.NewFactoryImpl (some [9, 9]))
        "test-channel" = .ok block ∧
      block.Header = some header ∧ header.Number = 0 ∧ header.PreviousHash = none ∧
      marshaledEnvelope = (sample.collaborators.Marshal (.envelope
        ⟨(sample.collaborators.Marshal (.payload
          ⟨some ⟨(sample.collaborators.Marshal (.channelHeader
              { Type_ := cb.HeaderType_CONFIG, Version := 1,
                Timestamp := some ⟨sample.collaborators.Now.Unix, 0⟩,
                ChannelId := "test-channel",
                TxId := sample.collaborators.ComputeTxID (some sample.nonce) none,
                Epoch := 0 })).1,
            (sample.collaborators.Marshal (.signatureHeader
              ⟨none, some sample.nonce⟩)).1⟩,
           (sample.collaborators.Marshal (.configEnvelope
             ⟨some ⟨(genesis.NewFactoryImpl (some [9, 9])).channelGroup⟩, none⟩)).1⟩)).1,
         none⟩)).1 ∧
      block.Data = some ⟨[marshaledEnvelope]⟩ ∧
      block.Extension = some ⟨[marshaledEnvelope]⟩ :=
  genesis_block_shape sample.collaborators (genesis.NewFactoryImpl (some [9, 9]))
    "test-channel" (some sample.nonce) rfl sample_Marshal_total

/-- C16. For every group, channel ID and generated nonce `n`, when the encoder does
not fail, the single data element of the genesis block is the encoding of an
envelope with no signature whose payload is the encoding of a payload whose header
carries the encoding of a channel header with type CONFIG, version 1, the given
channel ID, epoch 0 and transaction id `ComputeTxID(n, nil)`, and the encoding of a
signature header with no creator and nonce `n`. -/
theorem genesis_envelope_headers {G : Type} (x : genesis.Collaborators G)
    (f : genesis.factory G) (channelID : String) (n : GoBytes)
    (hn : protoutil.CreateNonceOrPanic x.rand = .ok n)
    (hm : ∀ m, (x.Marshal m).2 = none) :
    ∃ block chdr payloadData,
      genesis.factory.Block x f channelID = .ok block ∧
      chdr.Type_ = cb.HeaderType_CONFIG ∧ chdr.Version = 1 ∧ chdr.ChannelId = channelID ∧
      chdr.Epoch = 0 ∧ chdr.TxId = x.ComputeTxID n none ∧
      block.Data = some ⟨[(x.Marshal (.envelope
        ⟨(x.Marshal (.payload
          ⟨some ⟨(x.Marshal (.channelHeader chdr)).1,
                 (x.Marshal (.signatureHeader ⟨none, n⟩)).1⟩,
           payloadData⟩)).1,
         none⟩)).1]⟩ := by
  rw [genesis_Block_eq x f channelID n hn hm]
  exact ⟨_, _, _, rfl, rfl, rfl, rfl, rfl, rfl, rfl⟩

/-- The genesis block of the sample for channel "test-channel" under C16, with the
nonce 1, 2, ..., 24 drawn from the sample entropy source. -/
theorem genesis_envelope_headers_witness :
    ∃ block chdr payloadData,
      genesis.factory.Block sample.collaborators (genesis.NewFactoryImpl (some [9, 9]))
        "test-channel" = .ok block ∧
      chdr.Type_ = cb.HeaderType_CONFIG ∧ chdr.Version = 1 ∧ chdr.ChannelId = "test-channel" ∧
      chdr.Epoch = 0 ∧ chdr.TxId = sample.collaborators.ComputeTxID (some sample.nonce) none ∧
      block.Data = some ⟨[(sample.collaborators.Marshal (.envelope
        ⟨(sample.collaborators.Marshal (.payload
          ⟨some ⟨(sample.collaborators.Marshal (.channelHeader chdr)).1,
                 (sample.collaborators.Marshal (.signatureHeader
                   ⟨none, some sample.nonce⟩)).1⟩,
           payloadData⟩)).1,
         none⟩)).1]⟩ :=
  genesis_envelope_headers sample.collaborators (genesis.NewFactoryImpl (some [9, 9]))
    "test-channel" (some sample.nonce) rfl sample_Marshal_total

/-! ## The expiration rule -/

/-- C17. For every envelope, if the orderer configuration is present and its
expiration-check capability is not active, `Apply` returns success, whatever the
signed-data extraction, the expiration time of the identity and the clock are: none
of them is consulted. -/
theorem Apply_capability_off
    (EnvelopeAsSignedData : Option cb.Envelope → List msgprocessor.SignedData × Option GoError)
    (ExpiresAt : GoBytes → Time) (now : Time)
    (exp : msgprocessor.expirationRejectRule) (message : Option cb.Envelope)
    (ordererConf : msgprocessor.Orderer)
    (hcfg : exp.filterSupport.OrdererConfig = (ordererConf, true))
    (hoff : ordererConf.Capabilities.ExpirationCheck = false) :
    msgprocessor.expirationRejectRule.Apply ⟨EnvelopeAsSignedData, ExpiresAt, now⟩ exp message =
      .ok none := by
  simp [msgprocessor.expirationRejectRule.Apply, hcfg, hoff]

/-- The test cases of C17 on the sample: with the capability off, an envelope whose
identity expired (expiration 5 seconds, clock at 9 seconds) and a malformed
envelope both pass. -/
theorem Apply_capability_off_witness :
    msgprocessor.expirationRejectRule.Apply
        ⟨sample.EnvelopeAsSignedData, sample.ExpiresAt, ⟨9, 0⟩⟩ (sample.rule false)
        (some (sample.signedEnvelope 5)) = .ok none ∧
    msgprocessor.expirationRejectRule.Apply
        ⟨sample.EnvelopeAsSignedData, sample.ExpiresAt, ⟨9, 0⟩⟩ (sample.rule false)
        (some ⟨some sample.badBytes, none⟩) = .ok none :=
  ⟨Apply_capability_off sample.EnvelopeAsSignedData sample.ExpiresAt ⟨9, 0⟩ (sample.rule false)
      (some (sample.signedEnvelope 5)) ⟨⟨false⟩⟩ rfl rfl,
   Apply_capability_off sample.EnvelopeAsSignedData sample.ExpiresAt ⟨9, 0⟩ (sample.rule false)
      (some ⟨some sample.badBytes, none⟩) ⟨⟨false⟩⟩ rfl rfl⟩

/-- No instant is before itself. -/
theorem Time_Before_irrefl (t : Time) : t.Before t = false := by
  simp [Time.Before]

/-- C18. With the orderer configuration present and the capability active, for
every envelope whose signed data extracts (with first element `first`), clock
reading `now` and expiration time `t` of the signer: `Apply` succeeds if and only
if `t` is the zero time or `now` is before `t`; otherwise it fails with the error
"broadcast client identity expired", in particular when `t` is not the zero time
and `now` equals `t`. -/
theorem Apply_expiration_decision (x : msgprocessor.Collaborators)
    (exp : msgprocessor.expirationRejectRule) (message : Option cb.Envelope)
    (ordererConf : msgprocessor.Orderer) (first : msgprocessor.SignedData)
    (rest : List msgprocessor.SignedData)
    (hcfg : exp.filterSupport.OrdererConfig = (ordererConf, true))
    (hon : ordererConf.Capabilities.ExpirationCheck = true)
    (hsd : x.EnvelopeAsSignedData message = (first :: rest, none)) :
    (msgprocessor.expirationRejectRule.Apply x exp message = .ok none ↔
      ((x.ExpiresAt first.Identity).IsZero = true ∨
        x.Now.Before (x.ExpiresAt first.Identity) = true)) ∧
    (¬ ((x.ExpiresAt first.Identity).IsZero = true ∨
        x.Now.Before (x.ExpiresAt first.Identity) = true) →
      msgprocessor.expirationRejectRule.Apply x exp message =
        .ok (some (GoError.new "broadcast client identity expired"))) ∧
    ((x.ExpiresAt first.Identity).IsZero = false → x.Now = x.ExpiresAt first.Identity →
      msgprocessor.expirationRejectRule.Apply x exp message =
        .ok (some (GoError.new "broadcast client identity expired"))) := by
  have key : msgprocessor.expirationRejectRule.Apply x exp message =
      if ((x.ExpiresAt first.Identity).IsZero || x.Now.Before (x.ExpiresAt first.Identity)) = true
      then .ok none
      else .ok (some (GoError.new "broadcast client identity expired")) := by
    simp [msgprocessor.expirationRejectRule.Apply, hcfg, hon, hsd, errors.New]
  rw [key]
  refine ⟨?_, ?_, ?_⟩
  · constructor
    · intro h
      by_cases hb : ((x.ExpiresAt first.Identity).IsZero ||
          x.Now.Before (x.ExpiresAt first.Identity)) = true
      · simpa using hb
      · rw [if_neg hb] at h
        cases h
    · intro h
      rw [if_pos (by simpa using h)]
  · intro h
    rw [if_neg (by simpa using h)]
  · intro hz heq
    rw [heq, Time_Before_irrefl, hz]
    rfl

/-- The test cases of C18 on the sample, for the identity that expires 5 seconds
after the zero time: at 4 seconds and 999 nanoseconds the envelope passes, at
exactly 5 seconds it is rejected. -/
theorem Apply_expiration_decision_witness :
    msgprocessor.expirationRejectRule.Apply (sample.ruleCollaborators ⟨4, 999⟩)
        (sample.rule true) (some (sample.signedEnvelope 5)) = .ok none ∧
    msgprocessor.expirationRejectRule.Apply (sample.ruleCollaborators ⟨5, 0⟩)
        (sample.rule true) (some (sample.signedEnvelope 5)) =
      .ok (some (GoError.new "broadcast client identity expired")) :=
  ⟨(Apply_expiration_decision (sample.ruleCollaborators ⟨4, 999⟩) (sample.rule true)
      (some (sample.signedEnvelope 5)) ⟨⟨true⟩⟩
      ⟨some [10, 5, 18, 3, 10, 1, 5], some [5], none⟩ [] rfl rfl rfl).1.mpr (Or.inr rfl),
   (Apply_expiration_decision (sample.ruleCollaborators ⟨5, 0⟩) (sample.rule true)
      (some (sample.signedEnvelope 5)) ⟨⟨true⟩⟩
      ⟨some [10, 5, 18, 3, 10, 1, 5], some [5], none⟩ [] rfl rfl rfl).2.2 rfl rfl⟩

/-- C19. With the orderer configuration present and the capability active, for
every envelope that cannot be converted to signed-data form, `Apply` returns the
error "could not convert message to signedData: cause", which is not the
identity-expired error, whatever the clock and the expiration time of the identity
are. -/
theorem Apply_extraction_failure
    (EnvelopeAsSignedData : Option cb.Envelope → List msgprocessor.SignedData × Option GoError)
    (ExpiresAt : GoBytes → Time) (now : Time)
    (exp : msgprocessor.expirationRejectRule) (message : Option cb.Envelope)
    (ordererConf : msgprocessor.Orderer) (err : GoError)
    (hcfg : exp.filterSupport.OrdererConfig = (ordererConf, true))
    (hon : ordererConf.Capabilities.ExpirationCheck = true)
    (herr : (EnvelopeAsSignedData message).2 = some err) :
    msgprocessor.expirationRejectRule.Apply ⟨EnvelopeAsSignedData, ExpiresAt, now⟩ exp message =
      .ok (some (GoError.new ("could not convert message to signedData: " ++ err.Error))) ∧
    GoError.new ("could not convert message to signedData: " ++ err.Error) ≠
      GoError.new "broadcast client identity expired" := by
  constructor
  · cases hsd : EnvelopeAsSignedData message with
    | mk sd e =>
      rw [hsd] at herr
      simp only at herr
      subst herr
      simp [msgprocessor.expirationRejectRule.Apply, hcfg, hon, hsd]
  · intro h
    have hd := congrArg String.data (GoError.new.inj h)
    simp [String.data_append] at hd

/-- The test case of C19 on the sample: the envelope with payload bytes "bad
payload", with the capability on. -/
theorem Apply_extraction_failure_witness :
    msgprocessor.expirationRejectRule.Apply
        ⟨sample.EnvelopeAsSignedData, sample.ExpiresAt, ⟨9, 0⟩⟩ (sample.rule true)
        (some ⟨some sample.badBytes, none⟩) =
      .ok (some (GoError.new ("could not convert message to signedData: " ++
        (GoError.malformed sample.malformed).Error))) ∧
    GoError.new ("could not convert message to signedData: " ++
        (GoError.malformed sample.malformed).Error) ≠
      GoError.new "broadcast client identity expired" :=
  Apply_extraction_failure sample.EnvelopeAsSignedData sample.ExpiresAt ⟨9, 0⟩
    (sample.rule true) (some ⟨some sample.badBytes, none⟩) ⟨⟨true⟩⟩
    (GoError.malformed sample.malformed) rfl rfl rfl

/-! ## The transaction id of a channel header -/

/-- C21. For every channel header `h` and signature header `s`, `SetTxID(h, s)`
returns; afterwards the transaction id of the channel header is
`ComputeTxID(s.Nonce, s.Creator)`, its type, version, timestamp, channel ID and
epoch are those of `h`, and the signature header is `s`, unchanged; applying
`SetTxID` again with the same `s` changes nothing more. -/
theorem SetTxID_sets_only_TxId (ComputeTxID : GoBytes → GoBytes → String)
    (h : cb.ChannelHeader) (s : cb.SignatureHeader) :
    ∃ h1, protoutil.SetTxID ComputeTxID (some h) (some s) = .ok (h1, s) ∧
      h1.TxId = ComputeTxID s.Nonce s.Creator ∧
      h1.Type_ = h.Type_ ∧ h1.Version = h.Version ∧ h1.Timestamp = h.Timestamp ∧
      h1.ChannelId = h.ChannelId ∧ h1.Epoch = h.Epoch ∧
      protoutil.SetTxID ComputeTxID (some h1) (some s) = .ok (h1, s) :=
  ⟨_, rfl, rfl, rfl, rfl, rfl, rfl, rfl, rfl⟩

/-! ## Abort variants of the configtx decoders -/

/-- C22. For every byte string and each of Config, ConfigUpdate,
ConfigUpdateEnvelope and ConfigEnvelope: the error-returning decoder returns a nil
value together with every error; the OrPanic decoder aborts, with that error, if
and only if the error-returning decoder returns an error; otherwise it returns the
value that the error-returning decoder returns. -/
theorem OrPanic_agrees {G U : Type} (d : configtx.Decoders G U) (data : GoBytes) :
    ((∀ e, (configtx.UnmarshalConfig d data).2 = some e →
        (configtx.UnmarshalConfig d data).1 = none ∧
        configtx.UnmarshalConfigOrPanic d data = .error (Panic.error e)) ∧
      ((configtx.UnmarshalConfig d data).2 = none →
        configtx.UnmarshalConfigOrPanic d data = .ok (configtx.UnmarshalConfig d data).1) ∧
      ((∃ p, configtx.UnmarshalConfigOrPanic d data = .error p) ↔
        (configtx.UnmarshalConfig d data).2 ≠ none)) ∧
    ((∀ e, (configtx.UnmarshalConfigUpdate d data).2 = some e →
        (configtx.UnmarshalConfigUpdate d data).1 = none ∧
        configtx.UnmarshalConfigUpdateOrPanic d data = .error (Panic.error e)) ∧
      ((configtx.UnmarshalConfigUpdate d data).2 = none →
        configtx.UnmarshalConfigUpdateOrPanic d data =
          .ok (configtx.UnmarshalConfigUpdate d data).1) ∧
      ((∃ p, configtx.UnmarshalConfigUpdateOrPanic d data = .error p) ↔
        (configtx.UnmarshalConfigUpdate d data).2 ≠ none)) ∧
    ((∀ e, (configtx.UnmarshalConfigUpdateEnvelope d data).2 = some e →
        (configtx.UnmarshalConfigUpdateEnvelope d data).1 = none ∧
        configtx.UnmarshalConfigUpdateEnvelopeOrPanic d data = .error (Panic.error e)) ∧
      ((configtx.UnmarshalConfigUpdateEnvelope d data).2 = none →
        configtx.UnmarshalConfigUpdateEnvelopeOrPanic d data =
          .ok (configtx.UnmarshalConfigUpdateEnvelope d data).1) ∧
      ((∃ p, configtx.UnmarshalConfigUpdateEnvelopeOrPanic d data = .error p) ↔
        (configtx.UnmarshalConfigUpdateEnvelope d data).2 ≠ none)) ∧
    ((∀ e, (configtx.UnmarshalConfigEnvelope d data).2 = some e →
        (configtx.UnmarshalConfigEnvelope d data).1 = none ∧
        configtx.UnmarshalConfigEnvelopeOrPanic d data = .error (Panic.error e)) ∧
      ((configtx.UnmarshalConfigEnvelope d data).2 = none →
        configtx.UnmarshalConfigEnvelopeOrPanic d data =
          .ok (configtx.UnmarshalConfigEnvelope d data).1) ∧
      ((∃ p, configtx.UnmarshalConfigEnvelopeOrPanic d data = .error p) ↔
        (configtx.UnmarshalConfigEnvelope d data).2 ≠ none)) := by
  refine ⟨?_, ?_, ?_, ?_⟩
  · simp only [configtx.UnmarshalConfigOrPanic, configtx.UnmarshalConfig]
    cases (d.Config (bytesOf data) ⟨none⟩).2 <;> simp
  · simp only [configtx.UnmarshalConfigUpdateOrPanic, configtx.UnmarshalConfigUpdate]
    cases (d.ConfigUpdate (bytesOf data) d.emptyConfigUpdate).2 <;> simp
  · simp only [configtx.UnmarshalConfigUpdateEnvelopeOrPanic,
      configtx.UnmarshalConfigUpdateEnvelope]
    cases (d.ConfigUpdateEnvelope (bytesOf data) ⟨none⟩).2 <;> simp
  · simp only [configtx.UnmarshalConfigEnvelopeOrPanic, configtx.UnmarshalConfigEnvelope]
    cases (d.ConfigEnvelope (bytesOf data) ⟨none, none⟩).2 <;> simp

/-- The cases of C22 on the sample decoders: the bytes "bad payload" make
`UnmarshalConfig` return an error and a nil value and `UnmarshalConfigOrPanic`
abort with it; an encoded config is returned by both. -/
theorem OrPanic_agrees_witness :
    ((configtx.UnmarshalConfig sample.decoders (some sample.badBytes)).1 = none ∧
      configtx.UnmarshalConfigOrPanic sample.decoders (some sample.badBytes) =
        .error (Panic.error (GoError.malformed sample.malformed))) ∧
    configtx.UnmarshalConfigOrPanic sample.decoders (some [18, 1, 5]) =
      .ok (configtx.UnmarshalConfig sample.decoders (some [18, 1, 5])).1 :=
  ⟨(OrPanic_agrees sample.decoders (some sample.badBytes)).1.1
      (GoError.malformed sample.malformed) rfl,
   (OrPanic_agrees sample.decoders (some [18, 1, 5])).1.2.1 rfl⟩

/-! ## When `UnmarshalEnvelopeOfType` returns a channel header -/

/-- C24. For every envelope, expected type and message, `UnmarshalEnvelopeOfType`
returns a channel header exactly when steps 1 to 4 pass (the payload decodes, the
header is present, the channel header decodes, and its type is the expected one),
and then it is the decoded channel header; on a payload decode failure, a missing
header, a channel header decode failure or a type mismatch the returned channel
header is nil; on a body decode failure the result carries both a non-nil error
and the decoded channel header. -/
theorem UnmarshalEnvelopeOfType_header_returned {M : Type} (c : Codec)
    (unmarshal : ProtoUnmarshal M) (env : cb.Envelope) (headerType : cb.HeaderType)
    (message : M) :
    ∃ r, protoutil.UnmarshalEnvelopeOfType c unmarshal (some env) headerType message = .ok r ∧
      (∀ chdr, r.chdr = some chdr ↔
        ∃ p h, c.UnmarshalPayload (bytesOf env.Payload) = .ok p ∧ p.Header = some h ∧
          c.UnmarshalChannelHeader (bytesOf h.ChannelHeader) = .ok chdr ∧
          chdr.Type_ = headerType) ∧
      (∀ e, c.UnmarshalPayload (bytesOf env.Payload) = .error e → r.chdr = none) ∧
      (∀ p, c.UnmarshalPayload (bytesOf env.Payload) = .ok p → p.Header = none →
        r.chdr = none) ∧
      (∀ p h e, c.UnmarshalPayload (bytesOf env.Payload) = .ok p → p.Header = some h →
        c.UnmarshalChannelHeader (bytesOf h.ChannelHeader) = .error e → r.chdr = none) ∧
      (∀ p h chdr, c.UnmarshalPayload (bytesOf env.Payload) = .ok p → p.Header = some h →
        c.UnmarshalChannelHeader (bytesOf h.ChannelHeader) = .ok chdr →
        chdr.Type_ ≠ headerType → r.chdr = none) ∧
      (∀ p h chdr e, c.UnmarshalPayload (bytesOf env.Payload) = .ok p → p.Header = some h →
        c.UnmarshalChannelHeader (bytesOf h.ChannelHeader) = .ok chdr →
        chdr.Type_ = headerType → (unmarshal (bytesOf p.Data) message).2 = some e →
        r.chdr = some chdr ∧ r.err ≠ none) := by
  simp only [protoutil.UnmarshalEnvelopeOfType]
  cases hp : c.UnmarshalPayload (bytesOf env.Payload) with
  | error e1 =>
    refine ⟨_, rfl, ?_, ?_, ?_, ?_, ?_, ?_⟩
    all_goals simp
  | ok p =>
    simp only
    cases hh : p.Header with
    | none =>
      refine ⟨_, rfl, ?_, ?_, ?_, ?_, ?_, ?_⟩
      · intro chdr
        simp only [Except.ok.injEq, false_iff, not_exists, not_and, reduceCtorEq]
        intro p1 h1 hp1 hh1
        subst hp1
        rw [hh] at hh1
        cases hh1
      · simp
      · simp
      · simp
      · simp
      · intro p1 h1 chdr e hp1 hh1
        cases hp1
        rw [hh] at hh1
        cases hh1
    | some h =>
      simp only
      cases hc : c.UnmarshalChannelHeader (bytesOf h.ChannelHeader) with
      | error e2 =>
        refine ⟨_, rfl, ?_, ?_, ?_, ?_, ?_, ?_⟩
        · intro chdr
          simp only [Except.ok.injEq, false_iff, not_exists, not_and, reduceCtorEq]
          intro p1 h1 hp1 hh1 hc1
          subst hp1
          rw [hh] at hh1
          cases hh1
          rw [hc] at hc1
          cases hc1
        · simp
        · simp
        · simp
        · simp
        · intro p1 h1 chdr e hp1 hh1 hc1
          cases hp1
          rw [hh] at hh1
          cases hh1
          rw [hc] at hc1
          cases hc1
      | ok ch =>
        simp only
        by_cases ht : ch.Type_ = headerType
        · rw [if_neg (not_not.mpr ht)]
          refine ⟨_, rfl, ?_, ?_, ?_, ?_, ?_, ?_⟩
          · intro chdr
            simp only [Except.ok.injEq, Option.some.injEq]
            constructor
            · intro h1
              subst h1
              exact ⟨p, h, rfl, hh, hc, ht⟩
            · rintro ⟨p1, h1, hp1, hh1, hc1, _⟩
              subst hp1
              rw [hh] at hh1
              cases hh1
              rw [hc] at hc1
              cases hc1
              rfl
          · simp
          · intro p1 hp1 hh1
            cases hp1
            rw [hh] at hh1
            cases hh1
          · intro p1 h1 e hp1 hh1 hc1
            cases hp1
            rw [hh] at hh1
            cases hh1
            rw [hc] at hc1
            cases hc1
          · intro p1 h1 chdr hp1 hh1 hc1 hne
            cases hp1
            rw [hh] at hh1
            cases hh1
            rw [hc] at hc1
            cases hc1
            exact absurd ht hne
          · intro p1 h1 chdr e hp1 hh1 hc1 _ hbad
            cases hp1
            rw [hh] at hh1
            cases hh1
            rw [hc] at hc1
            cases hc1
            simp [hbad, errors.Wrap]
        · rw [if_pos ht]
          refine ⟨_, rfl, ?_, ?_, ?_, ?_, ?_, ?_⟩
          · intro chdr
            simp only [Except.ok.injEq, false_iff, not_exists, not_and, reduceCtorEq]
            intro p1 h1 hp1 hh1 hc1 ht1
            subst hp1
            rw [hh] at hh1
            cases hh1
            rw [hc] at hc1
            cases hc1
            exact ht ht1
          · simp
          · simp
          · simp
          · simp
          · intro p1 h1 chdr e hp1 hh1 hc1 ht1 _
            cases hp1
            rw [hh] at hh1
            cases hh1
            rw [hc] at hc1
            cases hc1
            exact absurd ht1 ht

/-- The body failure case of C24 on the sample codec (a CONFIG channel header
requested as CONFIG, with the data "bad payload"): the returned channel header is
not nil although the call failed. -/
theorem UnmarshalEnvelopeOfType_header_returned_witness :
    ∃ r, protoutil.UnmarshalEnvelopeOfType sample.codec sample.unmarshalBody
        (some ⟨some (sample.payloadBytes (sample.chdrBytes 1) sample.badBytes), none⟩)
        cb.HeaderType_CONFIG ⟨none, none⟩ = .ok r ∧
      r.chdr = some { sample.emptyChannelHeader with Type_ := 1 } ∧ r.err ≠ none :=
  match UnmarshalEnvelopeOfType_header_returned sample.codec sample.unmarshalBody
      ⟨some (sample.payloadBytes (sample.chdrBytes 1) sample.badBytes), none⟩
      cb.HeaderType_CONFIG ⟨none, none⟩ with
  | ⟨r, hr, _, _, _, _, _, hbody⟩ =>
    ⟨r, hr, hbody ⟨some ⟨some [8, 1], none⟩, some sample.badBytes⟩ ⟨some [8, 1], none⟩
      { sample.emptyChannelHeader with Type_ := 1 } sample.malformed rfl rfl rfl rfl rfl⟩

/-- On a non-nil envelope `UnmarshalEnvelopeOfType` returns: it does not abort. -/
theorem UnmarshalEnvelopeOfType_returns {M : Type} (c : Codec)
    (unmarshal : ProtoUnmarshal M) (env : cb.Envelope) (headerType : cb.HeaderType)
    (message : M) :
    ∃ r, protoutil.UnmarshalEnvelopeOfType c unmarshal (some env) headerType message =
      .ok r := by
  simp only [protoutil.UnmarshalEnvelopeOfType]
  cases c.UnmarshalPayload (bytesOf env.Payload) with
  | error e1 => exact ⟨_, rfl⟩
  | ok p =>
    simp only
    cases p.Header with
    | none => exact ⟨_, rfl⟩
    | some h =>
      simp only
      cases c.UnmarshalChannelHeader (bytesOf h.ChannelHeader) with
      | error e2 => exact ⟨_, rfl⟩
      | ok ch =>
        simp only
        split
        · exact ⟨_, rfl⟩
        · exact ⟨_, rfl⟩

/-! ## The config update of a payload -/

/-- C25 does not hold on the code.  For every payload: if its data does not decode
as a config envelope, `UnmarshalConfigUpdateFromPayload` returns the decode error;
if it decodes to a config envelope that carries a last update envelope, it returns
(a config update or an error); but if it decodes to a config envelope without last
update, it aborts: the nil envelope is handed to `EnvelopeToConfigUpdate`, and
`UnmarshalEnvelopeOfType` reads its payload through the nil pointer. -/
theorem UnmarshalConfigUpdateFromPayload_no_LastUpdate {G U : Type} (c : Codec)
    (d : configtx.Decoders G U) (payload : cb.Payload) :
    (∀ e, (d.ConfigEnvelope (bytesOf payload.Data) ⟨none, none⟩).2 = some e →
      configtx.UnmarshalConfigUpdateFromPayload c d (some payload) =
        .ok (none, some (GoError.malformed e))) ∧
    (∀ configEnv envelope,
      d.ConfigEnvelope (bytesOf payload.Data) ⟨none, none⟩ = (configEnv, none) →
      configEnv.LastUpdate = some envelope →
      ∃ r, configtx.UnmarshalConfigUpdateFromPayload c d (some payload) = .ok r) ∧
    (∀ configEnv,
      d.ConfigEnvelope (bytesOf payload.Data) ⟨none, none⟩ = (configEnv, none) →
      configEnv.LastUpdate = none →
      configtx.UnmarshalConfigUpdateFromPayload c d (some payload) =
        .error Panic.nilDereference) := by
  refine ⟨?_, ?_, ?_⟩
  · intro e he
    simp [configtx.UnmarshalConfigUpdateFromPayload, configtx.UnmarshalConfigEnvelope, he]
  · intro configEnv envelope hdec hsome
    obtain ⟨r, hr⟩ := UnmarshalEnvelopeOfType_returns c d.ConfigUpdateEnvelope
      envelope cb.HeaderType_CONFIG_UPDATE ⟨none⟩
    simp only [configtx.UnmarshalConfigUpdateFromPayload, configtx.UnmarshalConfigEnvelope,
      hdec, hsome, protoutil.EnvelopeToConfigUpdate, hr]
    cases hre : r.err with
    | some err => exact ⟨_, rfl⟩
    | none => exact ⟨_, rfl⟩
  · intro configEnv hdec hnil
    simp [configtx.UnmarshalConfigUpdateFromPayload, configtx.UnmarshalConfigEnvelope, hdec,
      hnil, protoutil.EnvelopeToConfigUpdate, protoutil.UnmarshalEnvelopeOfType]

/-- The failing input of C25 on the sample decoders: the payload with empty data
decodes to a config envelope without last update, and
`UnmarshalConfigUpdateFromPayload` aborts on the nil pointer instead of returning
an error. -/
theorem UnmarshalConfigUpdateFromPayload_aborts :
    sample.decoders.ConfigEnvelope (bytesOf (some [])) ⟨none, none⟩ = (⟨none, none⟩, none) ∧
    configtx.UnmarshalConfigUpdateFromPayload sample.codec sample.decoders
        (some ⟨none, some []⟩) = .error Panic.nilDereference :=
  ⟨rfl, (UnmarshalConfigUpdateFromPayload_no_LastUpdate sample.codec sample.decoders
    ⟨none, some []⟩).2.2 ⟨none, none⟩ rfl rfl⟩

/-! ## More of the sample codec decoding what it encodes -/

/-- The fields of an encoded bytes field, nil or not, followed by more input. -/
theorem sample_fields_encBytes_opt (num : Nat) (b : GoBytes) (rest : List Nat) :
    sample.fields (sample.encBytes num b ++ rest) =
      (sample.fields rest).map (fun fs =>
        (match b with
          | none => []
          | some content => [sample.Field.bytes num content]) ++ fs) := by
  cases b with
  | none => simp [sample.encBytes]
  | some content => simpa using sample_fields_encBytes num content rest

/-- The fields of an encoded number field, zero or not, followed by more input. -/
theorem sample_fields_encVarint_opt (num v : Nat) (rest : List Nat) :
    sample.fields (sample.encVarint num v ++ rest) =
      (sample.fields rest).map (fun fs =>
        (if v = 0 then [] else [sample.Field.varint num v]) ++ fs) := by
  by_cases hv : v = 0
  · simp [sample.encVarint, hv]
  · simpa [hv] using sample_fields_encVarint num v rest hv

/-- The fields of an encoded header. -/
theorem sample_fields_encHeader (h : cb.Header) :
    ∃ fs, sample.fields (sample.encHeader h) = some fs ∧
      sample.headerOf fs ⟨none, none⟩ = h := by
  obtain ⟨a, b⟩ := h
  have key := sample_fields_encBytes_opt 1 a (sample.encBytes 2 b)
  have key2 := sample_fields_encBytes_opt 2 b []
  rw [List.append_nil, sample_fields_nil] at key2
  rw [key2] at key
  simp only [Option.map_some', List.append_nil] at key
  refine ⟨_, key, ?_⟩
  cases a <;> cases b <;> rfl

/-- The sample decoder of payloads inverts the sample encoder. -/
theorem sample_payload_law (m : cb.Payload) :
    sample.UnmarshalPayload (sample.encPayload m) = .ok m := by
  obtain ⟨h, d⟩ := m
  have key := sample_fields_encBytes_opt 1 (h.map sample.encHeader) (sample.encBytes 2 d)
  have key2 := sample_fields_encBytes_opt 2 d []
  rw [List.append_nil, sample_fields_nil] at key2
  rw [key2] at key
  simp only [Option.map_some', List.append_nil] at key
  simp only [sample.UnmarshalPayload, sample.encPayload, key, Option.some_bind]
  cases h with
  | none => cases d <;> rfl
  | some hd =>
    obtain ⟨fs, h1, h2⟩ := sample_fields_encHeader hd
    cases d <;> simp [sample.payloadOf, h1, h2]

/-- The fields of an encoded envelope. -/
theorem sample_fields_encEnvelope (e : cb.Envelope) :
    ∃ fs, sample.fields (sample.encEnvelope e) = some fs ∧
      sample.envelopeOf fs ⟨none, none⟩ = e := by
  obtain ⟨a, b⟩ := e
  have key := sample_fields_encBytes_opt 1 a (sample.encBytes 2 b)
  have key2 := sample_fields_encBytes_opt 2 b []
  rw [List.append_nil, sample_fields_nil] at key2
  rw [key2] at key
  simp only [Option.map_some', List.append_nil] at key
  refine ⟨_, key, ?_⟩
  cases a <;> cases b <;> rfl

/-- The fields of an encoded config. -/
theorem sample_fields_encConfig (m : cb.Config sample.Group) :
    ∃ fs, sample.fields (sample.encConfig m) = some fs ∧ sample.configOf fs ⟨none⟩ = m := by
  obtain ⟨g⟩ := m
  have key := sample_fields_encBytes_opt 2 g []
  rw [List.append_nil, sample_fields_nil] at key
  simp only [Option.map_some', List.append_nil] at key
  refine ⟨_, key, ?_⟩
  cases g <;> rfl

/-- The sample decoder of config envelopes inverts the sample encoder. -/
theorem sample_configEnvelope_law (m m0 : cb.ConfigEnvelope sample.Group) :
    sample.unmarshalConfigEnvelope (sample.encConfigEnvelope m) m0 = (m, none) := by
  obtain ⟨cfg, lu⟩ := m
  have key := sample_fields_encBytes_opt 1 (cfg.map sample.encConfig)
    (sample.encBytes 2 (lu.map sample.encEnvelope))
  have key2 := sample_fields_encBytes_opt 2 (lu.map sample.encEnvelope) []
  rw [List.append_nil, sample_fields_nil] at key2
  rw [key2] at key
  simp only [Option.map_some', List.append_nil] at key
  simp only [sample.unmarshalConfigEnvelope, sample.encConfigEnvelope, key, Option.some_bind]
  cases cfg with
  | none =>
    cases lu with
    | none => rfl
    | some e =>
      obtain ⟨es, e1, e2⟩ := sample_fields_encEnvelope e
      simp [sample.configEnvelopeOf, e1, e2]
  | some cf =>
    obtain ⟨cs, c1, c2⟩ := sample_fields_encConfig cf
    cases lu with
    | none => simp [sample.configEnvelopeOf, c1, c2]
    | some e =>
      obtain ⟨es, e1, e2⟩ := sample_fields_encEnvelope e
      simp [sample.configEnvelopeOf, c1, c2, e1, e2]

/-- A text is read back from its bytes. -/
theorem sample_text_law (s : String) : sample.text (s.data.map Char.toNat) = s := by
  simp only [sample.text, List.map_map]
  have h : (Char.ofNat ∘ Char.toNat) = id := by
    funext c
    simp [Char.ofNat_toNat]
  rw [h, List.map_id]

/-- The fields of an encoded text field, empty or not, followed by more input. -/
theorem sample_fields_encText_opt (num : Nat) (s : String) (rest : List Nat) :
    sample.fields (sample.encText num s ++ rest) =
      (sample.fields rest).map (fun fs =>
        (if s = "" then [] else [sample.Field.bytes num (s.data.map Char.toNat)]) ++ fs) := by
  by_cases hs : s = ""
  · simp [sample.encText, hs]
  · simpa [sample.encText, hs] using
      sample_fields_encBytes num (s.data.map Char.toNat) rest

/-- The fields of an encoded timestamp whose numbers are not negative. -/
theorem sample_fields_encTimestamp (t : cb.Timestamp) (hs : 0 ≤ t.Seconds) (hn : 0 ≤ t.Nanos) :
    ∃ fs, sample.fields (sample.encTimestamp t) = some fs ∧
      sample.timestampOf fs ⟨0, 0⟩ = t := by
  obtain ⟨sec, nano⟩ := t
  simp only at hs hn
  lift sec to ℕ using hs
  lift nano to ℕ using hn
  have key := sample_fields_encVarint_opt 1 sec (sample.encVarint 2 nano)
  have key2 := sample_fields_encVarint_opt 2 nano []
  rw [List.append_nil, sample_fields_nil] at key2
  rw [key2] at key
  simp only [Option.map_some', List.append_nil] at key
  refine ⟨_, by simpa [sample.encTimestamp] using key, ?_⟩
  by_cases h1 : sec = 0 <;> by_cases h2 : nano = 0 <;> simp [h1, h2, sample.timestampOf]

/-- The sample decoder of channel headers inverts the sample encoder on the channel
headers that the encoding represents. -/
theorem sample_channelHeader_law (m : cb.ChannelHeader) (hm : sample.representable m) :
    sample.UnmarshalChannelHeader (sample.encChannelHeader m) = .ok m := by
  obtain ⟨ty, ver, ts, cid, tx, ep⟩ := m
  obtain ⟨h1, h2, h3⟩ := hm
  simp only at h1 h2 h3
  lift ty to ℕ using h1
  lift ver to ℕ using h2
  have k6 := sample_fields_encVarint_opt 6 ep []
  rw [List.append_nil, sample_fields_nil] at k6
  have k5 := sample_fields_encText_opt 5 tx (sample.encVarint 6 ep)
  rw [k6] at k5
  have k4 := sample_fields_encText_opt 4 cid (sample.encText 5 tx ++ sample.encVarint 6 ep)
  rw [k5] at k4
  have k3 := sample_fields_encBytes_opt 3 (ts.map sample.encTimestamp)
    (sample.encText 4 cid ++ (sample.encText 5 tx ++ sample.encVarint 6 ep))
  rw [k4] at k3
  have k2 := sample_fields_encVarint_opt 2 ver
    (sample.encBytes 3 (ts.map sample.encTimestamp) ++
      (sample.encText 4 cid ++ (sample.encText 5 tx ++ sample.encVarint 6 ep)))
  rw [k3] at k2
  have k1 := sample_fields_encVarint_opt 1 ty (sample.encVarint 2 ver ++
    (sample.encBytes 3 (ts.map sample.encTimestamp) ++
      (sample.encText 4 cid ++ (sample.encText 5 tx ++ sample.encVarint 6 ep))))
  rw [k2] at k1
  simp only [Option.map_some', List.append_nil] at k1
  simp only [sample.UnmarshalChannelHeader, sample.encChannelHeader, Int.toNat_ofNat,
    List.append_assoc, k1, Option.some_bind]
  cases ts with
  | none =>
    by_cases a1 : ty = 0 <;> by_cases a2 : ver = 0 <;> by_cases a4 : cid = "" <;>
      by_cases a5 : tx = "" <;> by_cases a6 : ep = 0 <;>
      simp [a1, a2, a4, a5, a6, sample.channelHeaderOf, sample.emptyChannelHeader,
        sample_text_law]
  | some t =>
    obtain ⟨ht1, ht2⟩ := h3 t rfl
    obtain ⟨fs, f1, f2⟩ := sample_fields_encTimestamp t ht1 ht2
    by_cases a1 : ty = 0 <;> by_cases a2 : ver = 0 <;> by_cases a4 : cid = "" <;>
      by_cases a5 : tx = "" <;> by_cases a6 : ep = 0 <;>
      simp [a1, a2, a4, a5, a6, sample.channelHeaderOf, sample.emptyChannelHeader,
        sample_text_law, f1, f2]

/-! ## The genesis block is a config block -/

/-- C23. Assume the round-trip law of the codec: envelopes, payloads and config
envelopes decode from their encodings, and so do the valid channel headers, where
every channel header of type CONFIG, version 1 and stamped with the clock reading
is valid.  Then for every channel configuration group and channel ID, when the
entropy source supplies the nonce and the encoder does not fail, the genesis
factory returns a block on which `IsConfigBlock` returns true, and
`UnmarshalEnvelopeOfType` with expected type CONFIG on the envelope extracted at
index 0 succeeds, returning a channel header with the given channel ID and leaving
in the message a config envelope whose config has the supplied channel group. -/
theorem genesis_block_is_config_block {G : Type} (c : Codec)
    (unmarshal : ProtoUnmarshal (cb.ConfigEnvelope G)) (x : genesis.Collaborators G)
    (f : genesis.factory G) (channelID : String) (valid : cb.ChannelHeader → Prop)
    (hr : (x.rand.Read 24).2 = none)
    (hm : ∀ m, (x.Marshal m).2 = none)
    (hvalid : ∀ h : cb.ChannelHeader, h.Type_ = cb.HeaderType_CONFIG → h.Version = 1 →
      h.Timestamp = some ⟨x.Now.Unix, 0⟩ → valid h)
    (lawEnvelope : ∀ m : cb.Envelope, (x.Marshal (.envelope m)).2 = none →
      c.GetEnvelopeFromBlock (bytesOf (x.Marshal (.envelope m)).1) = .ok m)
    (lawPayload : ∀ m : cb.Payload, (x.Marshal (.payload m)).2 = none →
      c.UnmarshalPayload (bytesOf (x.Marshal (.payload m)).1) = .ok m)
    (lawChannelHeader : ∀ m : cb.ChannelHeader, valid m →
      (x.Marshal (.channelHeader m)).2 = none →
      c.UnmarshalChannelHeader (bytesOf (x.Marshal (.channelHeader m)).1) = .ok m)
    (lawConfigEnvelope : ∀ m m0 : cb.ConfigEnvelope G,
      (x.Marshal (.configEnvelope m)).2 = none →
      unmarshal (bytesOf (x.Marshal (.configEnvelope m)).1) m0 = (m, none)) :
    ∃ block envelope chdr,
      genesis.factory.Block x f channelID = .ok block ∧
      protoutil.IsConfigBlock c (some block) = .ok true ∧
      protoutil.ExtractEnvelope c (some block) 0 = .ok (some envelope, none) ∧
      chdr.ChannelId = channelID ∧
      ∀ m0, protoutil.UnmarshalEnvelopeOfType c unmarshal (some envelope)
          cb.HeaderType_CONFIG m0 =
        .ok ⟨some chdr, none, ⟨some ⟨f.channelGroup⟩, none⟩⟩ := by
  rw [genesis_Block_eq x f channelID _ (CreateNonceOrPanic_supplied x.rand hr) hm]
  have hv := hvalid
    { Type_ := cb.HeaderType_CONFIG, Version := 1, Timestamp := some ⟨x.Now.Unix, 0⟩,
      ChannelId := channelID,
      TxId := x.ComputeTxID (some (fill (List.replicate 24 0) (x.rand.Read 24).1)) none,
      Epoch := 0 } rfl rfl rfl
  refine ⟨_,
    ⟨(x.Marshal (.payload
      ⟨some ⟨(x.Marshal (.channelHeader
          { Type_ := cb.HeaderType_CONFIG, Version := 1, Timestamp := some ⟨x.Now.Unix, 0⟩,
            ChannelId := channelID,
            TxId := x.ComputeTxID (some (fill (List.replicate 24 0) (x.rand.Read 24).1)) none,
            Epoch := 0 })).1,
        (x.Marshal (.signatureHeader
          ⟨none, some (fill (List.replicate 24 0) (x.rand.Read 24).1)⟩)).1⟩,
       (x.Marshal (.configEnvelope ⟨some ⟨f.channelGroup⟩, none⟩)).1⟩)).1, none⟩,
    { Type_ := cb.HeaderType_CONFIG, Version := 1, Timestamp := some ⟨x.Now.Unix, 0⟩,
      ChannelId := channelID,
      TxId := x.ComputeTxID (some (fill (List.replicate 24 0) (x.rand.Read 24).1)) none,
      Epoch := 0 },
    rfl, ?_, ?_, ?_, ?_⟩
  · rw [IsConfigBlock_cons c _ _ _ [] rfl rfl]
    simp only [lawEnvelope _ (hm _), lawPayload _ (hm _), lawChannelHeader _ hv (hm _)]
    rfl
  · rw [ExtractEnvelope_zero_cons c _ _ _ [] rfl rfl]
    simp only [lawEnvelope _ (hm _)]
  · rfl
  · intro m0
    simp only [protoutil.UnmarshalEnvelopeOfType, lawPayload _ (hm _),
      lawChannelHeader _ hv (hm _), lawConfigEnvelope _ m0 (hm _)]
    rfl

/-- The genesis block of the sample for channel "test-channel" under C23, with the
sample codec, whose round-trip laws are proved above. -/
theorem genesis_block_is_config_block_witness :
    ∃ block envelope chdr,
      genesis.factory.Block sample.collaborators (genesis.NewFactoryImpl (some [9, 9]))
        "test-channel" = .ok block ∧
      protoutil.IsConfigBlock sample.codec (some block) = .ok true ∧
      protoutil.ExtractEnvelope sample.codec (some block) 0 = .ok (some envelope, none) ∧
      chdr.ChannelId = "test-channel" ∧
      ∀ m0, protoutil.UnmarshalEnvelopeOfType sample.codec sample.unmarshalConfigEnvelope
          (some envelope) cb.HeaderType_CONFIG m0 =
        .ok ⟨some chdr, none, ⟨some ⟨some [9, 9]⟩, none⟩⟩ :=
  genesis_block_is_config_block sample.codec sample.unmarshalConfigEnvelope
    sample.collaborators (genesis.NewFactoryImpl (some [9, 9])) "test-channel"
    sample.representable rfl sample_Marshal_total
    (fun h h1 h2 h3 => ⟨by rw [h1]; decide, by rw [h2]; decide,
      fun t ht => by
        rw [h3] at ht
        cases ht
        exact ⟨by decide, by decide⟩⟩)
    (fun m _ => sample_envelope_law m)
    (fun m _ => sample_payload_law m)
    (fun m hv _ => sample_channelHeader_law m hv)
    (fun m m0 _ => sample_configEnvelope_law m m0)
